import Mathlib

/-!
# Verification of the lightcone-sdk WebSocket synchronization core

A shallow embedding, in Lean 4, of the stateful core of the `lightcone-sdk`
Python client (`src/python/src/websocket/...`): the orderbook replica
(`state/orderbook.py`), the price-history replica (`state/price.py`), the user
replica (`state/user.py`), the subscription registry (`subscriptions.py`), the
message dispatcher (`handlers.py`) and the reconnect logic of the receive loop
(`client.py`).

Modelling conventions:
* Python `dict` becomes an insertion-ordered association list (`PyDict`);
  `d[k] = v` updates the first matching entry in place or appends, `d.pop(k)`
  removes the first matching entry.  Real Python dictionaries never hold a
  duplicate key, so theorems about arbitrary replica states carry a
  `dictWF` (no-duplicate-keys) hypothesis where the lookup characterisation
  needs it.
* Python `set` becomes a duplicate-free list in insertion order (`PySet`);
  only membership and cardinality are used in theorems, because iteration
  order of a real Python set is unspecified.
* Numeric strings stay strings.  `parseDec` gives the exact decimal value
  `(m, e)` (value `m·10^e`) of a decimal literal, mirroring the common
  grammar accepted by Python `float()` and `Decimal()`: optional sign, digits
  with an optional fraction dot, an optional `e`-exponent, surrounding spaces
  stripped.  Lexical extras (`inf`, `nan`, underscores, tabs) are treated as
  unparseable; neither call site treats those as zero in Python either.
* Python `float(s) == 0.0` (binary64, round-to-nearest-even) holds exactly
  when the exact decimal value satisfies `|m·10^e| ≤ 2^(-1075)`; this is
  `pyFloatIsZero`, stated over integers so that it evaluates in the kernel.
* Methods that mutate `self` become functions from the state to the new
  state; a `raise` that the caller catches becomes an explicit sum or an
  `Option` error component.
* The `asyncio` receive loop becomes a transition system (`receive_step`)
  over the loop's local state, driven by abstract environment events
  (received frames, closes, pong timeouts, dial outcomes); real-time delays
  and jitter are not modelled.
-/

set_option maxRecDepth 10000

/-! ## Python primitives -/

/-- Python `dict` as an insertion-ordered association list. -/
abbrev PyDict (α β : Type) : Type := List (α × β)

/-- `d.get(key)` / `d[key]`: value of the first entry whose key matches. -/
def dictGet? [DecidableEq α] : PyDict α β → α → Option β
  | [], _ => none
  | (k, v) :: rest, key => if k = key then some v else dictGet? rest key

/-- `d[key] = val`: replace the value of an existing entry in place (keeping
its position and original key object), else append a new entry. -/
def dictSet [DecidableEq α] : PyDict α β → α → β → PyDict α β
  | [], key, val => [(key, val)]
  | (k, v) :: rest, key, val =>
    if k = key then (k, val) :: rest else (k, v) :: dictSet rest key val

/-- `d.pop(key, None)`: drop the first entry whose key matches. -/
def dictPop [DecidableEq α] : PyDict α β → α → PyDict α β
  | [], _ => []
  | (k, v) :: rest, key => if k = key then rest else (k, v) :: dictPop rest key

/-- `key in d`. -/
def dictMem [DecidableEq α] (d : PyDict α β) (key : α) : Bool :=
  (dictGet? d key).isSome

/-- `d.keys()` in insertion order. -/
def dictKeys (d : PyDict α β) : List α := d.map Prod.fst

/-- A `PyDict` reachable from real Python code never holds a duplicate key. -/
def dictWF (d : PyDict α β) : Prop := (dictKeys d).Nodup

/-- Python `set` as a duplicate-free list in insertion order. -/
abbrev PySet (α : Type) : Type := List α

/-- `s.add(x)`. -/
def setAdd [DecidableEq α] (s : PySet α) (x : α) : PySet α :=
  if x ∈ s then s else s ++ [x]

/-- `s.discard(x)`. -/
def setDiscard [DecidableEq α] (s : PySet α) (x : α) : PySet α := s.erase x

/-- `x in s`. -/
def setMem [DecidableEq α] (s : PySet α) (x : α) : Bool := decide (x ∈ s)

/-- Truthiness of a Python `Optional[str]`: `None` and `""` are falsy. -/
def pyTruthy : Option String → Bool
  | none => false
  | some s => s ≠ ""

/-- Python `key.startswith(pre)`. -/
def pyStartsWith (s pre : String) : Bool := pre.data.isPrefixOf s.data

/-- Value of a digit string, most significant first. -/
def digitsToNat (ds : List Char) : Nat :=
  ds.foldl (fun a c => a * 10 + (c.toNat - '0'.toNat)) 0

/-- Optional leading sign of a numeric literal. -/
def parseSign : List Char → Int × List Char
  | '+' :: rest => (1, rest)
  | '-' :: rest => (-1, rest)
  | cs => (1, cs)

/-- Exponent-and-validation tail of `parseDec`: given the sign, the integer and
fraction digits and the rest of the input, produce `(mantissa, exponent)`. -/
def parseDecTail (sign : Int) (intDigits fracDigits rest : List Char) :
    Option (Int × Int) :=
  if intDigits.isEmpty && fracDigits.isEmpty then none
  else
    let m : Int := sign * (digitsToNat (intDigits ++ fracDigits) : Int)
    let e0 : Int := -(fracDigits.length : Int)
    match rest with
    | [] => some (m, e0)
    | c :: rest2 =>
      if c = 'e' ∨ c = 'E' then
        let sr := parseSign rest2
        let expDigits := sr.2.takeWhile Char.isDigit
        let rest3 := sr.2.dropWhile Char.isDigit
        if expDigits.isEmpty || !rest3.isEmpty then none
        else some (m, e0 + sr.1 * (digitsToNat expDigits : Int))
      else none

/-- Exact decimal value of a numeric string: `parseDec s = some (m, e)` means
the string denotes exactly `m·10^e`; `none` means it is not a (plain) decimal
literal.  See the module docstring for the relation to Python `float()` and
`Decimal()`. -/
def parseDec (s : String) : Option (Int × Int) :=
  let cs := ((s.data.dropWhile (· = ' ')).reverse.dropWhile (· = ' ')).reverse
  let sr := parseSign cs
  let intDigits := sr.2.takeWhile Char.isDigit
  let rest1 := sr.2.dropWhile Char.isDigit
  match rest1 with
  | '.' :: rest2 =>
    parseDecTail sr.1 intDigits (rest2.takeWhile Char.isDigit)
      (rest2.dropWhile Char.isDigit)
  | _ => parseDecTail sr.1 intDigits [] rest1

/-- `float(s) == 0.0` for the decimal `m·10^e`: under IEEE-754 binary64
round-to-nearest-even the conversion yields ±0.0 exactly when
`|m·10^e| ≤ 2^(-1075)` (half the smallest subnormal; the tie rounds to the
even mantissa 0).  Stated with integer arithmetic so the kernel can
evaluate it: for `e < 0` the inequality is `|m|·2^1075 ≤ 10^(-e)`, and for
`e ≥ 0` it forces `m = 0`. -/
def pyFloatIsZero (m e : Int) : Bool :=
  if 0 ≤ e then m.natAbs * 10 ^ e.toNat * 2 ^ 1075 ≤ 1
  else m.natAbs * 2 ^ 1075 ≤ 10 ^ (-e).toNat

/-! ## Orderbook replica (`state/orderbook.py`) -/

/-- `is_zero_size` (orderbook.py lines 10–17): fast path on three literal
strings, otherwise `float(size) == 0.0`, with unparseable strings (a
`ValueError`/`TypeError` in Python) reported as non-zero. -/
def is_zero_size (size : String) : Bool :=
  if size = "0" ∨ size = "0.0" ∨ size = "0.000000" then true
  else
    match parseDec size with
    | some (m, e) => pyFloatIsZero m e
    | none => false

/-- One entry of `bids`/`asks` in a `book_update` frame (types.py `PriceLevel`). -/
structure PriceLevel where
  side : String
  price : String
  size : String
deriving DecidableEq

/-- `BookUpdateData` (types.py), with the same defaults as the dataclass. -/
structure BookUpdateData where
  orderbook_id : String
  timestamp : String := ""
  seq : Int := 0
  bids : List PriceLevel := []
  asks : List PriceLevel := []
  is_snapshot : Bool := false
  resync : Bool := false
  message : Option String := none
deriving DecidableEq

/-- `LocalOrderbook` state (orderbook.py `__init__`). -/
structure LocalOrderbook where
  orderbook_id : String
  bids : PyDict String String := []
  asks : PyDict String String := []
  expected_seq : Int := 0
  has_snapshot : Bool := false
  last_timestamp : Option String := none
deriving DecidableEq

/-- `LocalOrderbook(orderbook_id)`. -/
def mkLocalOrderbook (orderbook_id : String) : LocalOrderbook :=
  { orderbook_id := orderbook_id }

/-- The delta loop body of `apply_delta` applied to one side: zero size pops
the level, non-zero size upserts it. -/
def applyDeltaLevels (m : PyDict String String) (levels : List PriceLevel) :
    PyDict String String :=
  levels.foldl
    (fun acc lv =>
      if is_zero_size lv.size then dictPop acc lv.price
      else dictSet acc lv.price lv.size)
    m

/-- The snapshot loop body of `apply_snapshot` applied to one side: insert
every non-zero level into the cleared dict. -/
def snapshotLevels (levels : List PriceLevel) : PyDict String String :=
  levels.foldl
    (fun acc lv =>
      if is_zero_size lv.size then acc else dictSet acc lv.price lv.size)
    []

/-- `LocalOrderbook.apply_snapshot` (orderbook.py lines 36–51). -/
def LocalOrderbook.apply_snapshot (book : LocalOrderbook)
    (update : BookUpdateData) : LocalOrderbook :=
  { book with
    bids := snapshotLevels update.bids
    asks := snapshotLevels update.asks
    expected_seq := update.seq + 1
    has_snapshot := true
    last_timestamp := some update.timestamp }

/-- `LocalOrderbook.apply_delta` (orderbook.py lines 53–75).  The method
mutates `self` and raises `SequenceGapError(expected, received)` on a
mismatch before touching any field; here it returns the new state together
with `some (expected, received)` when that exception is raised. -/
def LocalOrderbook.apply_delta (book : LocalOrderbook)
    (update : BookUpdateData) : LocalOrderbook × Option (Int × Int) :=
  if update.seq ≠ book.expected_seq then
    (book, some (book.expected_seq, update.seq))
  else
    ({ book with
        bids := applyDeltaLevels book.bids update.bids
        asks := applyDeltaLevels book.asks update.asks
        expected_seq := update.seq + 1
        last_timestamp := some update.timestamp },
      none)

/-- `LocalOrderbook.apply_update` (orderbook.py lines 77–86). -/
def LocalOrderbook.apply_update (book : LocalOrderbook)
    (update : BookUpdateData) : LocalOrderbook × Option (Int × Int) :=
  if update.is_snapshot then (book.apply_snapshot update, none)
  else book.apply_delta update

/-- `LocalOrderbook.bid_size_at` (orderbook.py lines 156–158). -/
def LocalOrderbook.bid_size_at (book : LocalOrderbook) (price : String) :
    Option String :=
  dictGet? book.bids price

/-- `LocalOrderbook.ask_size_at` (orderbook.py lines 160–162). -/
def LocalOrderbook.ask_size_at (book : LocalOrderbook) (price : String) :
    Option String :=
  dictGet? book.asks price

/-- `LocalOrderbook.clear` (orderbook.py lines 204–210). -/
def LocalOrderbook.clear (book : LocalOrderbook) : LocalOrderbook :=
  { book with
    bids := []
    asks := []
    expected_seq := 0
    has_snapshot := false
    last_timestamp := none }

/-- Specification helper (not from the source): the last entry for price `p`
in a delta's level list — the entry whose effect survives the loop. -/
def lastLevelFor : List PriceLevel → String → Option PriceLevel
  | [], _ => none
  | lv :: rest, p =>
    match lastLevelFor rest p with
    | some x => some x
    | none => if lv.price = p then some lv else none

/-! ## Price-history replica (`state/price.py`) -/

/-- `Candle` (types.py): timestamp plus optional OHLCV/midpoint/best-bid/ask. -/
structure Candle where
  t : Int
  o : Option String := none
  h : Option String := none
  l : Option String := none
  c : Option String := none
  v : Option String := none
  m : Option String := none
  bb : Option String := none
  ba : Option String := none
deriving DecidableEq

/-- `PriceHistoryData` (types.py): snapshot / update / heartbeat payload. -/
structure PriceHistoryData where
  event_type : String
  orderbook_id : Option String := none
  resolution : Option String := none
  include_ohlcv : Option Bool := none
  prices : List Candle := []
  last_timestamp : Option Int := none
  server_time : Option Int := none
  last_processed : Option Int := none
  t : Option Int := none
  o : Option String := none
  h : Option String := none
  l : Option String := none
  c : Option String := none
  v : Option String := none
  m : Option String := none
  bb : Option String := none
  ba : Option String := none
deriving DecidableEq

/-- `PriceHistoryData.to_candle` (types.py lines 396–410). -/
def PriceHistoryData.to_candle (d : PriceHistoryData) : Option Candle :=
  match d.t with
  | none => none
  | some t =>
    some { t := t, o := d.o, h := d.h, l := d.l, c := d.c, v := d.v,
           m := d.m, bb := d.bb, ba := d.ba }

/-- `PriceHistory` state (price.py `__init__`). -/
structure PriceHistory where
  orderbook_id : String
  resolution : String
  include_ohlcv : Bool := false
  candles : List Candle := []
  candle_index : PyDict Int Nat := []
  last_timestamp : Option Int := none
  server_time : Option Int := none
  has_snapshot : Bool := false
deriving DecidableEq

/-- `PriceHistory(orderbook_id, resolution, include_ohlcv)`. -/
def mkPriceHistory (orderbook_id resolution : String)
    (include_ohlcv : Bool := false) : PriceHistory :=
  { orderbook_id := orderbook_id, resolution := resolution,
    include_ohlcv := include_ohlcv }

/-- The snapshot loop of `apply_snapshot`: append each candle, recording its
position in the index. -/
def snapshotFold (prices : List Candle) : List Candle × PyDict Int Nat :=
  prices.foldl
    (fun acc candle =>
      (acc.1 ++ [candle], dictSet acc.2 candle.t acc.1.length))
    ([], [])

/-- `PriceHistory.apply_snapshot` (price.py lines 42–58). -/
def PriceHistory.apply_snapshot (ph : PriceHistory) (data : PriceHistoryData) :
    PriceHistory :=
  let ci := snapshotFold data.prices
  { ph with
    candles := ci.1
    candle_index := ci.2
    last_timestamp := data.last_timestamp
    server_time := data.server_time
    has_snapshot := true
    include_ohlcv := data.include_ohlcv.getD ph.include_ohlcv }

/-- The body of the `while len > 1000` trimming loop of
`_update_or_append_candle` (price.py lines 95–97): pop the last candle and
drop its timestamp from the index until at most 1000 candles remain.  The
`fuel` argument only bounds the iteration count of the `while` loop (each
pass shortens the list by one, so the initial length is enough fuel); it is
structural recursion so that the kernel can evaluate the function. -/
def trimGo (fuel : Nat) (cs : List Candle) (idx : PyDict Int Nat) :
    List Candle × PyDict Int Nat :=
  match fuel with
  | 0 => (cs, idx)
  | fuel + 1 =>
    if 1000 < cs.length then
      match cs.getLast? with
      | some removed => trimGo fuel cs.dropLast (dictPop idx removed.t)
      | none => (cs, idx)
    else (cs, idx)

/-- The trimming loop, started with enough fuel for every iteration. -/
def trimCandles (cs : List Candle) (idx : PyDict Int Nat) :
    List Candle × PyDict Int Nat :=
  trimGo cs.length cs idx

/-- `PriceHistory._update_or_append_candle` (price.py lines 66–101). -/
def PriceHistory.update_or_append_candle (ph : PriceHistory) (candle : Candle) :
    PriceHistory :=
  let ci :
      List Candle × PyDict Int Nat :=
    match dictGet? ph.candle_index candle.t with
    | some idx =>
      -- known timestamp: replace in place, index untouched
      (ph.candles.set idx candle, ph.candle_index)
    | none =>
      -- new candle: insert at the first position whose timestamp is older,
      -- shift the indices at or after that position, then trim to 1000
      let insert_pos := ph.candles.findIdx (fun cd => cd.t < candle.t)
      let new_index :=
        ph.candle_index.map
          (fun kv => (kv.1, if insert_pos ≤ kv.2 then kv.2 + 1 else kv.2))
      trimCandles (ph.candles.insertIdx insert_pos candle)
        (dictSet new_index candle.t insert_pos)
  { ph with
    candles := ci.1
    candle_index := ci.2
    last_timestamp :=
      match ci.1 with
      | [] => ph.last_timestamp
      | c0 :: _ => some c0.t }

/-- `PriceHistory.apply_update` (price.py lines 60–64). -/
def PriceHistory.apply_update (ph : PriceHistory) (data : PriceHistoryData) :
    PriceHistory :=
  match data.to_candle with
  | some candle => ph.update_or_append_candle candle
  | none => ph

/-- `PriceHistory.apply_heartbeat` (price.py lines 103–105). -/
def PriceHistory.apply_heartbeat (ph : PriceHistory)
    (data : PriceHistoryData) : PriceHistory :=
  { ph with server_time := data.server_time }

/-- `PriceHistory.apply_event` (price.py lines 107–114); unrecognised event
types fall through without effect. -/
def PriceHistory.apply_event (ph : PriceHistory) (data : PriceHistoryData) :
    PriceHistory :=
  if data.event_type = "snapshot" then ph.apply_snapshot data
  else if data.event_type = "update" then ph.apply_update data
  else if data.event_type = "heartbeat" then ph.apply_heartbeat data
  else ph

/-- `PriceHistory.clear` (price.py lines 180–186). -/
def PriceHistory.clear (ph : PriceHistory) : PriceHistory :=
  { ph with
    candles := []
    candle_index := []
    last_timestamp := none
    server_time := none
    has_snapshot := false }

/-- Candle timestamps, newest first. -/
def candleTs (cs : List Candle) : List Int := cs.map Candle.t

/-- Sorted strictly descending by timestamp. -/
def sortedDescT (cs : List Candle) : Prop :=
  List.Sorted (fun a b => b < a) (candleTs cs)

/-- The timestamp→position map is exactly the positions of the candle list:
its keys are duplicate-free and `(t, i)` is an entry iff candle `i` exists
and has timestamp `t`. -/
def idxOk (cs : List Candle) (idx : PyDict Int Nat) : Prop :=
  dictWF idx ∧ ∀ t i, (t, i) ∈ idx ↔ (candleTs cs)[i]? = some t

/-- Replica invariant for the price-history state: candles sorted strictly
descending by timestamp, at most 1000 of them, and a consistent index. -/
def PHInv (ph : PriceHistory) : Prop :=
  sortedDescT ph.candles ∧ ph.candles.length ≤ 1000 ∧
    idxOk ph.candles ph.candle_index

/-- A snapshot payload as the server is documented to send it (price.py
line 47: "they come newest-first from server"): strictly descending
timestamps and at most 1000 candles. -/
def wellFormedSnapshot (d : PriceHistoryData) : Prop :=
  d.event_type = "snapshot" →
    sortedDescT d.prices ∧ d.prices.length ≤ 1000

/-! ## User replica (`state/user.py`) -/

/-- `is_zero` (user.py lines 9–14): `Decimal(s) == 0`, exact; strings
`Decimal` rejects (an `InvalidOperation` in Python) count as non-zero. -/
def is_zero (s : String) : Bool :=
  match parseDec s with
  | some (m, _) => m = 0
  | none => false

/-- `OutcomeBalance` (types.py). -/
structure OutcomeBalance where
  outcome_index : Int
  mint : String
  idle : String
  on_book : String
deriving DecidableEq

/-- `Balance` (types.py). -/
structure Balance where
  outcomes : List OutcomeBalance
deriving DecidableEq

/-- `BalanceEntry` (types.py). -/
structure BalanceEntry where
  market_pubkey : String
  deposit_mint : String
  outcomes : List OutcomeBalance
deriving DecidableEq

/-- `Order` (types.py). -/
structure Order where
  order_hash : String
  market_pubkey : String
  orderbook_id : String
  side : Int
  maker_amount : String
  taker_amount : String
  remaining : String
  filled : String
  price : String
  created_at : Int
  expiration : Int
deriving DecidableEq

/-- `OrderUpdate` (types.py). -/
structure OrderUpdate where
  order_hash : String
  price : String
  fill_amount : String
  remaining : String
  filled : String
  side : Int
  is_maker : Bool
  created_at : Int
  balance : Option Balance := none
deriving DecidableEq

/-- `UserEventData` (types.py), with the dataclass defaults. -/
structure UserEventData where
  event_type : String
  orders : List Order := []
  balances : PyDict String BalanceEntry := []
  order : Option OrderUpdate := none
  balance : Option Balance := none
  market_pubkey : Option String := none
  orderbook_id : Option String := none
  deposit_mint : Option String := none
  timestamp : Option String := none
deriving DecidableEq

/-- `UserState` (user.py `__init__`). -/
structure UserState where
  user : String
  orders : PyDict String Order := []
  balances : PyDict String BalanceEntry := []
  has_snapshot : Bool := false
  last_timestamp : Option String := none
deriving DecidableEq

/-- `UserState(user)`. -/
def mkUserState (user : String) : UserState := { user := user }

/-- The balance key `f"{market_pubkey}:{deposit_mint}"`. -/
def balanceKey (market_pubkey deposit_mint : String) : String :=
  market_pubkey ++ ":" ++ deposit_mint

/-- The order synthesised by `apply_order_update` (user.py lines 60–72) for an
unknown hash when both `market_pubkey` and `orderbook_id` are present. -/
def synthesizedOrder (data : UserEventData) (update : OrderUpdate) : Order :=
  { order_hash := update.order_hash
    market_pubkey := data.market_pubkey.getD ""
    orderbook_id := data.orderbook_id.getD ""
    side := update.side
    maker_amount := update.remaining
    taker_amount := "0"
    remaining := update.remaining
    filled := update.filled
    price := update.price
    created_at := update.created_at
    expiration := 0 }

/-- The `for key, entry in self._balances.items(): if key.startswith(market):
entry.outcomes = outcomes; break` loop of `_apply_balance_from_order`
(user.py lines 106–109): replace the outcomes of the first entry whose key
starts with the market, leave everything else alone. -/
def updateFirstMarketMatch (bs : PyDict String BalanceEntry) (market : String)
    (outcomes : List OutcomeBalance) : PyDict String BalanceEntry :=
  match bs with
  | [] => []
  | (k, entry) :: rest =>
    if pyStartsWith k market then
      (k, { entry with outcomes := outcomes }) :: rest
    else (k, entry) :: updateFirstMarketMatch rest market outcomes

/-- `UserState._apply_balance_from_order` (user.py lines 94–109). -/
def UserState.apply_balance_from_order (st : UserState) (data : UserEventData)
    (balance : Balance) : UserState :=
  if pyTruthy data.market_pubkey && pyTruthy data.deposit_mint then
    { st with
      balances :=
        dictSet st.balances
          (balanceKey (data.market_pubkey.getD "") (data.deposit_mint.getD ""))
          { market_pubkey := data.market_pubkey.getD ""
            deposit_mint := data.deposit_mint.getD ""
            outcomes := balance.outcomes } }
  else if pyTruthy data.market_pubkey then
    { st with
      balances :=
        updateFirstMarketMatch st.balances (data.market_pubkey.getD "")
          balance.outcomes }
  else st

/-- `UserState.apply_order_update` (user.py lines 41–79). -/
def UserState.apply_order_update (st : UserState) (data : UserEventData) :
    UserState :=
  match data.order with
  | none => st
  | some update =>
    let st1 :=
      if is_zero update.remaining then
        { st with orders := dictPop st.orders update.order_hash }
      else
        match dictGet? st.orders update.order_hash with
        | some existing =>
          { st with
            orders :=
              dictSet st.orders update.order_hash
                { existing with
                  remaining := update.remaining
                  filled := update.filled } }
        | none =>
          if pyTruthy data.market_pubkey && pyTruthy data.orderbook_id then
            { st with
              orders :=
                dictSet st.orders update.order_hash
                  (synthesizedOrder data update) }
          else st
    let st2 :=
      match update.balance with
      | some b => st1.apply_balance_from_order data b
      | none => st1
    { st2 with last_timestamp := data.timestamp }

/-- `UserState.apply_balance_update` (user.py lines 81–92). -/
def UserState.apply_balance_update (st : UserState) (data : UserEventData) :
    UserState :=
  let st1 :=
    match data.balance with
    | some b =>
      if pyTruthy data.market_pubkey && pyTruthy data.deposit_mint then
        { st with
          balances :=
            dictSet st.balances
              (balanceKey (data.market_pubkey.getD "")
                (data.deposit_mint.getD ""))
              { market_pubkey := data.market_pubkey.getD ""
                deposit_mint := data.deposit_mint.getD ""
                outcomes := b.outcomes } }
      else st
    | none => st
  { st1 with last_timestamp := data.timestamp }

/-- `UserState.apply_snapshot` (user.py lines 27–39). -/
def UserState.apply_snapshot (st : UserState) (data : UserEventData) :
    UserState :=
  { st with
    orders := data.orders.foldl (fun acc o => dictSet acc o.order_hash o) []
    balances :=
      data.balances.foldl (fun acc kv => dictSet acc kv.1 kv.2) []
    has_snapshot := true
    last_timestamp := data.timestamp }

/-- `UserState.apply_event` (user.py lines 111–118). -/
def UserState.apply_event (st : UserState) (data : UserEventData) :
    UserState :=
  if data.event_type = "snapshot" then st.apply_snapshot data
  else if data.event_type = "order_update" then st.apply_order_update data
  else if data.event_type = "balance_update" then st.apply_balance_update data
  else st

/-- Specification helper (not from the source): key of the first balance
entry whose key starts with the given market. -/
def firstMarketKey? (bs : PyDict String BalanceEntry) (market : String) :
    Option String :=
  (bs.find? (fun kv => pyStartsWith kv.1 market)).map Prod.fst

/-! ## Subscription registry (`subscriptions.py`) -/

/-- `Subscription` dataclass (subscriptions.py lines 15–25). -/
structure Subscription where
  type_ : String
  orderbook_ids : Option (List String) := none
  user : Option String := none
  orderbook_id : Option String := none
  resolution : Option String := none
  include_ohlcv : Option Bool := none
  market_pubkey : Option String := none
deriving DecidableEq

/-- `SubscriptionManager` state (subscriptions.py `__init__`). -/
structure SubscriptionManager where
  book_updates : PySet String := []
  trades : PySet String := []
  users : PySet String := []
  price_history : PyDict String (String × String × Bool) := []
  markets : PySet String := []
deriving DecidableEq

/-- `SubscriptionManager()`. -/
def mkSubscriptionManager : SubscriptionManager := {}

/-- `SubscriptionManager.add_user` (subscriptions.py lines 86–88):
`self._users.add(user)` — plain set insertion. -/
def SubscriptionManager.add_user (mgr : SubscriptionManager) (user : String) :
    SubscriptionManager :=
  { mgr with users := setAdd mgr.users user }

/-- `SubscriptionManager.remove_user` (subscriptions.py lines 90–92). -/
def SubscriptionManager.remove_user (mgr : SubscriptionManager)
    (user : String) : SubscriptionManager :=
  { mgr with users := setDiscard mgr.users user }

/-- `SubscriptionManager.is_subscribed_user` (subscriptions.py lines 94–96). -/
def SubscriptionManager.is_subscribed_user (mgr : SubscriptionManager)
    (user : String) : Bool :=
  setMem mgr.users user

/-- `SubscriptionManager.get_all_subscriptions` (subscriptions.py lines
130–171): one grouped entry per book/trade topic, one entry per user, per
price-history key and per market. -/
def SubscriptionManager.get_all_subscriptions (mgr : SubscriptionManager) :
    List Subscription :=
  (if mgr.book_updates.isEmpty then []
    else [{ type_ := "book_update", orderbook_ids := some mgr.book_updates }]) ++
  (if mgr.trades.isEmpty then []
    else [{ type_ := "trades", orderbook_ids := some mgr.trades }]) ++
  mgr.users.map (fun u => { type_ := "user", user := some u }) ++
  mgr.price_history.map
    (fun kv =>
      { type_ := "price_history"
        orderbook_id := some kv.2.1
        resolution := some kv.2.2.1
        include_ohlcv := some kv.2.2.2 }) ++
  mgr.markets.map (fun mk => { type_ := "market", market_pubkey := some mk })

/-! ## Receive loop and reconnect (`client.py`)

`LightconeWebSocketClient._receive_loop` (client.py lines 288–349) and
`_attempt_reconnect` (lines 351–400) become a transition system.  The state
holds the fields the loop reads and writes: `self._running`,
`self._connected`, whether `self._ws` is set, the loop-local
`reconnect_attempts` counter, and whether the task has returned (`exited`).
Each `LoopEvent` is one iteration-driving occurrence: a received frame, an
unexpected close carrying its close code, a pong-timeout firing, a
cancellation, or a non-close exception; for the two recovery triggers the
event also carries the outcome the environment would give the dial performed
inside `_attempt_reconnect` (ignored when no dial happens).  Delays, jitter
and the event queue are not modelled. -/

/-- The reconnect-relevant part of `WebSocketConfig` (client.py lines 37–48)
plus the client's `reconnect` flag. -/
structure WsClientConfig where
  reconnect_enabled : Bool := true
  max_reconnect_attempts : Nat := 5

/-- State of one run of `_receive_loop`. -/
structure LoopState where
  running : Bool
  connected : Bool
  has_ws : Bool
  attempts : Nat
  exited : Bool
deriving DecidableEq

/-- Loop state right after a successful external `connect` started the task
(client.py lines 225–232 and 290). -/
def initialLoopState : LoopState :=
  { running := true, connected := true, has_ws := true, attempts := 0,
    exited := false }

/-- One environment occurrence driving a loop iteration. -/
inductive LoopEvent where
  | message
  | connClosed (code : Int) (dialSucceeds : Bool)
  | pongTimeout (dialSucceeds : Bool)
  | cancelled
  | recvError
deriving DecidableEq

/-- `_attempt_reconnect(attempt)` (client.py lines 351–400): when the counter
has reached the maximum, set `self._running = False` and return without
dialing; otherwise dial, and on success set `self._connected = True` (the
resubscription and events it also performs do not touch loop state); a
failed or timed-out dial just returns. -/
def attempt_reconnect (cfg : WsClientConfig) (st : LoopState)
    (dialSucceeds : Bool) : LoopState :=
  if cfg.max_reconnect_attempts ≤ st.attempts then { st with running := false }
  else if dialSucceeds then { st with connected := true, has_ws := true }
  else st

/-- `reconnect_attempts += 1`, executed after every `_attempt_reconnect`
call in both recovery branches (client.py lines 307 and 341). -/
def bumpAttempts (st : LoopState) : LoopState :=
  { st with attempts := st.attempts + 1 }

/-- The `while self._running` check that ends an iteration: when `running`
was cleared the loop falls out and the task returns. -/
def loopWhileCheck (st : LoopState) : LoopState :=
  if st.running then st else { st with exited := true }

/-- One iteration of `_receive_loop` (client.py lines 292–349) driven by one
environment event. -/
def receive_step (cfg : WsClientConfig) (st : LoopState) (ev : LoopEvent) :
    LoopState :=
  if st.exited then st
  else if !st.running then { st with exited := true }
  else if !st.has_ws then { st with exited := true }
  else
    match ev with
    | .message => st
    | .recvError => st
    | .cancelled => { st with exited := true }
    | .pongTimeout dialSucceeds =>
      let st1 := { st with connected := false }
      if cfg.reconnect_enabled && st1.running then
        loopWhileCheck (bumpAttempts (attempt_reconnect cfg st1 dialSucceeds))
      else { st1 with exited := true }
    | .connClosed code dialSucceeds =>
      let st1 := { st with connected := false }
      if code = 1008 then { st1 with exited := true }
      else if cfg.reconnect_enabled && st1.running then
        loopWhileCheck (bumpAttempts (attempt_reconnect cfg st1 dialSucceeds))
      else { st1 with exited := true }

/-- Run the receive loop over a whole event trace. -/
def receive_run (cfg : WsClientConfig) (st : LoopState)
    (evs : List LoopEvent) : LoopState :=
  evs.foldl (receive_step cfg) st

/-- A recovery trigger whose subsequent reconnect dial (if any) fails: an
unexpected, non-rate-limited close or a pong timeout. -/
def isFailedRecoveryTrigger : LoopEvent → Bool
  | .connClosed code dialSucceeds => !dialSucceeds && code ≠ 1008
  | .pongTimeout dialSucceeds => !dialSucceeds
  | _ => false

/-- A recovery trigger regardless of dial outcome. -/
def isRecoveryTrigger : LoopEvent → Bool
  | .connClosed code _ => code ≠ 1008
  | .pongTimeout _ => true
  | _ => false

/-! ## Message dispatcher (`handlers.py`, `types.py`)

The dispatcher is embedded over a model of parsed JSON values (`PyVal`).
`handle_message` receives the outcome of `json.loads` (`LoadResult`): either
a `json.JSONDecodeError` or a parsed value.  The per-topic `from_dict`
class methods become decoders into the typed payloads above; a Python
exception inside them (`KeyError`, `TypeError`, `AttributeError`) becomes an
`Except.error`, which the per-topic handlers catch exactly where the source
has a `try`/`except`.  One deliberate strictness: the decoders also require
the expected field types, whereas the Python `from_dict`s store whatever is
present and defer any type failure; this does not affect the claims settled
here.  The unused `version` field of `RawWsMessage` is omitted. -/

/-- A parsed JSON value (non-integral numbers do not occur in any field the
dispatcher logic consults and are omitted). -/
inductive PyVal where
  | null
  | bool (b : Bool)
  | int (n : Int)
  | str (s : String)
  | arr (xs : List PyVal)
  | obj (kvs : List (String × PyVal))

/-- Python truthiness of a JSON value. -/
def pyValTruthy : PyVal → Bool
  | .null => false
  | .bool b => b
  | .int n => n ≠ 0
  | .str s => s ≠ ""
  | .arr xs => !xs.isEmpty
  | .obj kvs => !kvs.isEmpty

/-- `d.get(k)` on a JSON object. -/
def objGet? : List (String × PyVal) → String → Option PyVal
  | [], _ => none
  | (k, v) :: rest, key => if k = key then some v else objGet? rest key

/-- A Python exception escaping a modelled call. -/
inductive PyExn where
  | jsonDecodeError (msg : String)
  | attributeError (msg : String)
  | keyError (key : String)
  | typeError (msg : String)
deriving DecidableEq

/-- `str(e)` as used in the logged parse-error events; the exact rendering
is cosmetic. -/
def pyExnMsg : PyExn → String
  | .jsonDecodeError msg => msg
  | .attributeError msg => msg
  | .keyError key => key
  | .typeError msg => msg

/-- `data[k]`: `KeyError` when missing. -/
def reqKey (kvs : List (String × PyVal)) (k : String) : Except PyExn PyVal :=
  match objGet? kvs k with
  | some v => .ok v
  | none => .error (.keyError k)

/-- Required string field. -/
def asStr : PyVal → Except PyExn String
  | .str s => .ok s
  | _ => .error (.typeError "expected str")

/-- Optional string field with a default (`data.get(k, d)`). -/
def asStrD (v : Option PyVal) (d : String) : Except PyExn String :=
  match v with
  | none => .ok d
  | some (.str s) => .ok s
  | some _ => .error (.typeError "expected str")

/-- `data.get(k)` as an optional string (`None` and missing both give
`none`). -/
def asOptStr (v : Option PyVal) : Except PyExn (Option String) :=
  match v with
  | none => .ok none
  | some .null => .ok none
  | some (.str s) => .ok (some s)
  | some _ => .error (.typeError "expected str")

/-- Required integer field. -/
def asInt : PyVal → Except PyExn Int
  | .int n => .ok n
  | _ => .error (.typeError "expected int")

/-- Optional integer field with a default. -/
def asIntD (v : Option PyVal) (d : Int) : Except PyExn Int :=
  match v with
  | none => .ok d
  | some (.int n) => .ok n
  | some _ => .error (.typeError "expected int")

/-- `data.get(k)` as an optional integer. -/
def asOptInt (v : Option PyVal) : Except PyExn (Option Int) :=
  match v with
  | none => .ok none
  | some .null => .ok none
  | some (.int n) => .ok (some n)
  | some _ => .error (.typeError "expected int")

/-- Required boolean field. -/
def asBool : PyVal → Except PyExn Bool
  | .bool b => .ok b
  | _ => .error (.typeError "expected bool")

/-- Optional boolean field with a default. -/
def asBoolD (v : Option PyVal) (d : Bool) : Except PyExn Bool :=
  match v with
  | none => .ok d
  | some (.bool b) => .ok b
  | some _ => .error (.typeError "expected bool")

/-- `data.get(k)` as an optional boolean. -/
def asOptBool (v : Option PyVal) : Except PyExn (Option Bool) :=
  match v with
  | none => .ok none
  | some .null => .ok none
  | some (.bool b) => .ok (some b)
  | some _ => .error (.typeError "expected bool")

/-- List comprehension over `data.get(k, [])`. -/
def decodeList (dec : PyVal → Except PyExn γ) (v : Option PyVal) :
    Except PyExn (List γ) :=
  match v with
  | none => .ok []
  | some (.arr xs) => xs.mapM dec
  | some _ => .error (.typeError "expected list")

/-- Dict comprehension over `data.get(k, {}).items()`. -/
def decodeStrDict (dec : PyVal → Except PyExn γ) (v : Option PyVal) :
    Except PyExn (PyDict String γ) :=
  match v with
  | none => .ok []
  | some (.obj kvs) => kvs.mapM (fun kv => do pure (kv.1, ← dec kv.2))
  | some _ => .error (.attributeError "items")

/-- `RawWsMessage` (types.py lines 90–104) without the unused `version`. -/
structure RawWsMessage where
  type_ : PyVal
  data : PyVal

/-- `RawWsMessage.from_dict` (types.py lines 98–104): reads `data.get(...)`,
so any non-dict JSON value raises `AttributeError` here. -/
def RawWsMessage.from_dict (v : PyVal) : Except PyExn RawWsMessage :=
  match v with
  | .obj kvs =>
    .ok { type_ := (objGet? kvs "type").getD (.str "")
          data := (objGet? kvs "data").getD (.obj []) }
  | _ => .error (.attributeError "get")

/-- `MessageType.from_str` (types.py lines 615–632) applied to the raw
`type` value: unknown strings and non-strings (a `ValueError` in the enum
constructor) give `"unknown"`. -/
def msgTypeOf : PyVal → String
  | .str s =>
    if s = "book_update" ∨ s = "trades" ∨ s = "user" ∨ s = "price_history" ∨
        s = "market" ∨ s = "error" ∨ s = "pong" then s
    else "unknown"
  | _ => "unknown"

/-- `TradeData` (types.py lines 161–181). -/
structure TradeData where
  orderbook_id : String
  price : String
  size : String
  side : String
  timestamp : String
  trade_id : String
deriving DecidableEq

/-- `MarketEventData` (types.py lines 441–457). -/
structure MarketEventData where
  event_type : String
  market_pubkey : String
  timestamp : String
  orderbook_id : Option String := none
deriving DecidableEq

/-- `ErrorData` (types.py lines 482–496). -/
structure ErrorData where
  error : String
  code : String
  orderbook_id : Option String := none
deriving DecidableEq

/-- The websocket error values carried inside emitted events (error.py). -/
inductive WsErr where
  | messageParseError (msg : String)
  | serverError (code msg : String)
  | sequenceGapError (expected received : Int)
  | pingTimeoutError
  | rateLimitedError
  | webSocketError (msg : String)
deriving DecidableEq

/-- `WsEventType` (types.py lines 521–534). -/
inductive WsEventType where
  | connected
  | disconnected
  | book_update
  | trade
  | user_update
  | price_update
  | market_event
  | error
  | resync_required
  | pong
  | reconnecting
deriving DecidableEq

/-- `WsEvent` (types.py lines 537–607). -/
structure WsEvent where
  type : WsEventType
  orderbook_id : Option String := none
  is_snapshot : Option Bool := none
  trade : Option TradeData := none
  event_type : Option String := none
  user : Option String := none
  resolution : Option String := none
  market_pubkey : Option String := none
  error : Option WsErr := none
  reason : Option String := none
  attempt : Option Int := none
deriving DecidableEq

/-- `WsEvent.book_update(...)` factory. -/
def mkBookUpdateEvent (orderbook_id : String) (is_snapshot : Bool) : WsEvent :=
  { type := .book_update, orderbook_id := some orderbook_id,
    is_snapshot := some is_snapshot }

/-- `WsEvent.trade(...)` factory. -/
def mkTradeEvent (orderbook_id : String) (trade : TradeData) : WsEvent :=
  { type := .trade, orderbook_id := some orderbook_id, trade := some trade }

/-- `WsEvent.user_update(...)` factory. -/
def mkUserUpdateEvent (event_type user : String) : WsEvent :=
  { type := .user_update, event_type := some event_type, user := some user }

/-- `WsEvent.price_update(...)` factory. -/
def mkPriceUpdateEvent (orderbook_id resolution : String) : WsEvent :=
  { type := .price_update, orderbook_id := some orderbook_id,
    resolution := some resolution }

/-- `WsEvent.market_event(...)` factory. -/
def mkMarketEvent (event_type market_pubkey : String) : WsEvent :=
  { type := .market_event, event_type := some event_type,
    market_pubkey := some market_pubkey }

/-- `WsEvent.error(...)` factory. -/
def mkErrorEvent (err : WsErr) : WsEvent :=
  { type := .error, error := some err }

/-- `WsEvent.resync_required(...)` factory. -/
def mkResyncRequiredEvent (orderbook_id : String) : WsEvent :=
  { type := .resync_required, orderbook_id := some orderbook_id }

/-- `WsEvent.pong()` factory. -/
def mkPongEvent : WsEvent := { type := .pong }

/-- `PriceLevel.from_dict` (types.py lines 120–126). -/
def decodePriceLevel (v : PyVal) : Except PyExn PriceLevel :=
  match v with
  | .obj kvs => do
    let side ← asStr (← reqKey kvs "side")
    let price ← asStr (← reqKey kvs "price")
    let size ← asStr (← reqKey kvs "size")
    .ok { side := side, price := price, size := size }
  | _ => .error (.typeError "expected dict")

/-- `BookUpdateData.from_dict` (types.py lines 142–153). -/
def decodeBookUpdateData (v : PyVal) : Except PyExn BookUpdateData :=
  match v with
  | .obj kvs => do
    let orderbook_id ← asStr (← reqKey kvs "orderbook_id")
    let timestamp ← asStrD (objGet? kvs "timestamp") ""
    let seq ← asIntD (objGet? kvs "seq") 0
    let bids ← decodeList decodePriceLevel (objGet? kvs "bids")
    let asks ← decodeList decodePriceLevel (objGet? kvs "asks")
    let is_snapshot ← asBoolD (objGet? kvs "is_snapshot") false
    let resync ← asBoolD (objGet? kvs "resync") false
    let message ← asOptStr (objGet? kvs "message")
    .ok { orderbook_id := orderbook_id, timestamp := timestamp, seq := seq,
          bids := bids, asks := asks, is_snapshot := is_snapshot,
          resync := resync, message := message }
  | _ => .error (.typeError "expected dict")

/-- `TradeData.from_dict` (types.py lines 172–181). -/
def decodeTradeData (v : PyVal) : Except PyExn TradeData :=
  match v with
  | .obj kvs => do
    let orderbook_id ← asStr (← reqKey kvs "orderbook_id")
    let price ← asStr (← reqKey kvs "price")
    let size ← asStr (← reqKey kvs "size")
    let side ← asStr (← reqKey kvs "side")
    let timestamp ← asStr (← reqKey kvs "timestamp")
    let trade_id ← asStr (← reqKey kvs "trade_id")
    .ok { orderbook_id := orderbook_id, price := price, size := size,
          side := side, timestamp := timestamp, trade_id := trade_id }
  | _ => .error (.typeError "expected dict")

/-- `OutcomeBalance.from_dict` (types.py lines 198–205). -/
def decodeOutcomeBalance (v : PyVal) : Except PyExn OutcomeBalance :=
  match v with
  | .obj kvs => do
    let outcome_index ← asInt (← reqKey kvs "outcome_index")
    let mint ← asStr (← reqKey kvs "mint")
    let idle ← asStr (← reqKey kvs "idle")
    let on_book ← asStr (← reqKey kvs "on_book")
    .ok { outcome_index := outcome_index, mint := mint, idle := idle,
          on_book := on_book }
  | _ => .error (.typeError "expected dict")

/-- `Balance.from_dict` (types.py lines 214–218). -/
def decodeBalance (v : PyVal) : Except PyExn Balance :=
  match v with
  | .obj kvs => do
    let outcomes ← decodeList decodeOutcomeBalance (objGet? kvs "outcomes")
    .ok { outcomes := outcomes }
  | _ => .error (.typeError "expected dict")

/-- `BalanceEntry.from_dict` (types.py lines 229–235). -/
def decodeBalanceEntry (v : PyVal) : Except PyExn BalanceEntry :=
  match v with
  | .obj kvs => do
    let market_pubkey ← asStr (← reqKey kvs "market_pubkey")
    let deposit_mint ← asStr (← reqKey kvs "deposit_mint")
    let outcomes ← decodeList decodeOutcomeBalance (objGet? kvs "outcomes")
    .ok { market_pubkey := market_pubkey, deposit_mint := deposit_mint,
          outcomes := outcomes }
  | _ => .error (.typeError "expected dict")

/-- `Order.from_dict` (types.py lines 254–268). -/
def decodeOrder (v : PyVal) : Except PyExn Order :=
  match v with
  | .obj kvs => do
    let order_hash ← asStr (← reqKey kvs "order_hash")
    let market_pubkey ← asStr (← reqKey kvs "market_pubkey")
    let orderbook_id ← asStr (← reqKey kvs "orderbook_id")
    let side ← asInt (← reqKey kvs "side")
    let maker_amount ← asStr (← reqKey kvs "maker_amount")
    let taker_amount ← asStr (← reqKey kvs "taker_amount")
    let remaining ← asStr (← reqKey kvs "remaining")
    let filled ← asStr (← reqKey kvs "filled")
    let price ← asStr (← reqKey kvs "price")
    let created_at ← asInt (← reqKey kvs "created_at")
    let expiration ← asInt (← reqKey kvs "expiration")
    .ok { order_hash := order_hash, market_pubkey := market_pubkey,
          orderbook_id := orderbook_id, side := side,
          maker_amount := maker_amount, taker_amount := taker_amount,
          remaining := remaining, filled := filled, price := price,
          created_at := created_at, expiration := expiration }
  | _ => .error (.typeError "expected dict")

/-- `OrderUpdate.from_dict` (types.py lines 285–300); the inline balance is
decoded only when the `balance` entry is present and truthy. -/
def decodeOrderUpdate (v : PyVal) : Except PyExn OrderUpdate :=
  match v with
  | .obj kvs => do
    let balance ←
      match objGet? kvs "balance" with
      | some w =>
        if pyValTruthy w then do
          pure (some (← decodeBalance w))
        else pure none
      | none => pure none
    let order_hash ← asStr (← reqKey kvs "order_hash")
    let price ← asStr (← reqKey kvs "price")
    let fill_amount ← asStr (← reqKey kvs "fill_amount")
    let remaining ← asStr (← reqKey kvs "remaining")
    let filled ← asStr (← reqKey kvs "filled")
    let side ← asInt (← reqKey kvs "side")
    let is_maker ← asBool (← reqKey kvs "is_maker")
    let created_at ← asInt (← reqKey kvs "created_at")
    .ok { order_hash := order_hash, price := price,
          fill_amount := fill_amount, remaining := remaining,
          filled := filled, side := side, is_maker := is_maker,
          created_at := created_at, balance := balance }
  | _ => .error (.typeError "expected dict")

/-- `UserEventData.from_dict` (types.py lines 317–336); `order` and
`balance` are decoded only when present and truthy. -/
def decodeUserEventData (v : PyVal) : Except PyExn UserEventData :=
  match v with
  | .obj kvs => do
    let orders ← decodeList decodeOrder (objGet? kvs "orders")
    let balances ← decodeStrDict decodeBalanceEntry (objGet? kvs "balances")
    let order ←
      match objGet? kvs "order" with
      | some w =>
        if pyValTruthy w then do
          pure (some (← decodeOrderUpdate w))
        else pure none
      | none => pure none
    let balance ←
      match objGet? kvs "balance" with
      | some w =>
        if pyValTruthy w then do
          pure (some (← decodeBalance w))
        else pure none
      | none => pure none
    let event_type ← asStr (← reqKey kvs "event_type")
    let market_pubkey ← asOptStr (objGet? kvs "market_pubkey")
    let orderbook_id ← asOptStr (objGet? kvs "orderbook_id")
    let deposit_mint ← asOptStr (objGet? kvs "deposit_mint")
    let timestamp ← asOptStr (objGet? kvs "timestamp")
    .ok { event_type := event_type, orders := orders, balances := balances,
          order := order, balance := balance, market_pubkey := market_pubkey,
          orderbook_id := orderbook_id, deposit_mint := deposit_mint,
          timestamp := timestamp }
  | _ => .error (.typeError "expected dict")

/-- `Candle.from_dict` (types.py lines 358–370). -/
def decodeCandle (v : PyVal) : Except PyExn Candle :=
  match v with
  | .obj kvs => do
    let t ← asInt (← reqKey kvs "t")
    let o ← asOptStr (objGet? kvs "o")
    let h ← asOptStr (objGet? kvs "h")
    let l ← asOptStr (objGet? kvs "l")
    let c ← asOptStr (objGet? kvs "c")
    let v2 ← asOptStr (objGet? kvs "v")
    let m ← asOptStr (objGet? kvs "m")
    let bb ← asOptStr (objGet? kvs "bb")
    let ba ← asOptStr (objGet? kvs "ba")
    .ok { t := t, o := o, h := h, l := l, c := c, v := v2, m := m, bb := bb,
          ba := ba }
  | _ => .error (.typeError "expected dict")

/-- `PriceHistoryData.from_dict` (types.py lines 412–433). -/
def decodePriceHistoryData (v : PyVal) : Except PyExn PriceHistoryData :=
  match v with
  | .obj kvs => do
    let prices ← decodeList decodeCandle (objGet? kvs "prices")
    let event_type ← asStr (← reqKey kvs "event_type")
    let orderbook_id ← asOptStr (objGet? kvs "orderbook_id")
    let resolution ← asOptStr (objGet? kvs "resolution")
    let include_ohlcv ← asOptBool (objGet? kvs "include_ohlcv")
    let last_timestamp ← asOptInt (objGet? kvs "last_timestamp")
    let server_time ← asOptInt (objGet? kvs "server_time")
    let last_processed ← asOptInt (objGet? kvs "last_processed")
    let t ← asOptInt (objGet? kvs "t")
    let o ← asOptStr (objGet? kvs "o")
    let h ← asOptStr (objGet? kvs "h")
    let l ← asOptStr (objGet? kvs "l")
    let c ← asOptStr (objGet? kvs "c")
    let v2 ← asOptStr (objGet? kvs "v")
    let m ← asOptStr (objGet? kvs "m")
    let bb ← asOptStr (objGet? kvs "bb")
    let ba ← asOptStr (objGet? kvs "ba")
    .ok { event_type := event_type, orderbook_id := orderbook_id,
          resolution := resolution, include_ohlcv := include_ohlcv,
          prices := prices, last_timestamp := last_timestamp,
          server_time := server_time, last_processed := last_processed,
          t := t, o := o, h := h, l := l, c := c, v := v2, m := m, bb := bb,
          ba := ba }
  | _ => .error (.typeError "expected dict")

/-- `MarketEventData.from_dict` (types.py lines 450–457). -/
def decodeMarketEventData (v : PyVal) : Except PyExn MarketEventData :=
  match v with
  | .obj kvs => do
    let event_type ← asStr (← reqKey kvs "event_type")
    let market_pubkey ← asStr (← reqKey kvs "market_pubkey")
    let timestamp ← asStr (← reqKey kvs "timestamp")
    let orderbook_id ← asOptStr (objGet? kvs "orderbook_id")
    .ok { event_type := event_type, market_pubkey := market_pubkey,
          timestamp := timestamp, orderbook_id := orderbook_id }
  | _ => .error (.typeError "expected dict")

/-- `ErrorData.from_dict` (types.py lines 490–496). -/
def decodeErrorData (v : PyVal) : Except PyExn ErrorData :=
  match v with
  | .obj kvs => do
    let error ← asStr (← reqKey kvs "error")
    let code ← asStr (← reqKey kvs "code")
    let orderbook_id ← asOptStr (objGet? kvs "orderbook_id")
    .ok { error := error, code := code, orderbook_id := orderbook_id }
  | _ => .error (.typeError "expected dict")

/-- `MessageHandler` state (handlers.py lines 27–31). -/
structure MessageHandler where
  orderbooks : PyDict String LocalOrderbook := []
  user_states : PyDict String UserState := []
  price_histories : PyDict (String × String) PriceHistory := []
  subscribed_user : Option String := none

/-- `MessageHandler()`. -/
def mkMessageHandler : MessageHandler := {}

/-- `MessageHandler._handle_book_update` (handlers.py lines 62–95).  The
`SequenceGapError` raised by `apply_delta` is caught, the book cleared and a
`resync_required` event emitted; decode failures become one parse-error
event. -/
def MessageHandler.handle_book_update (st : MessageHandler)
    (raw : RawWsMessage) : MessageHandler × List WsEvent :=
  match decodeBookUpdateData raw.data with
  | .error e => (st, [mkErrorEvent (.messageParseError (pyExnMsg e))])
  | .ok data =>
    if data.resync then (st, [mkResyncRequiredEvent data.orderbook_id])
    else
      let book :=
        (dictGet? st.orderbooks data.orderbook_id).getD
          (mkLocalOrderbook data.orderbook_id)
      match book.apply_update data with
      | (book2, none) =>
        ({ st with
            orderbooks := dictSet st.orderbooks data.orderbook_id book2 },
          [mkBookUpdateEvent data.orderbook_id data.is_snapshot])
      | (book2, some _) =>
        ({ st with
            orderbooks :=
              dictSet st.orderbooks data.orderbook_id book2.clear },
          [mkResyncRequiredEvent data.orderbook_id])

/-- `MessageHandler._handle_trade` (handlers.py lines 97–105). -/
def MessageHandler.handle_trade (st : MessageHandler) (raw : RawWsMessage) :
    MessageHandler × List WsEvent :=
  match decodeTradeData raw.data with
  | .error e => (st, [mkErrorEvent (.messageParseError (pyExnMsg e))])
  | .ok data => (st, [mkTradeEvent data.orderbook_id data])

/-- `MessageHandler._handle_user_event` (handlers.py lines 107–124):
`self._subscribed_user or "unknown"` falls back on `None` or the empty
string, and state is updated only for an already-initialised user. -/
def MessageHandler.handle_user_event (st : MessageHandler)
    (raw : RawWsMessage) : MessageHandler × List WsEvent :=
  match decodeUserEventData raw.data with
  | .error e => (st, [mkErrorEvent (.messageParseError (pyExnMsg e))])
  | .ok data =>
    let user :=
      if pyTruthy st.subscribed_user then st.subscribed_user.getD ""
      else "unknown"
    let st2 :=
      match dictGet? st.user_states user with
      | some us =>
        { st with
          user_states := dictSet st.user_states user (us.apply_event data) }
      | none => st
    (st2, [mkUserUpdateEvent data.event_type user])

/-- `MessageHandler._handle_price_history` (handlers.py lines 126–162). -/
def MessageHandler.handle_price_history (st : MessageHandler)
    (raw : RawWsMessage) : MessageHandler × List WsEvent :=
  match decodePriceHistoryData raw.data with
  | .error e => (st, [mkErrorEvent (.messageParseError (pyExnMsg e))])
  | .ok data =>
    if data.event_type = "heartbeat" then
      ({ st with
          price_histories :=
            st.price_histories.map
              (fun kv => (kv.1, kv.2.apply_heartbeat data)) },
        [])
    else if !pyTruthy data.orderbook_id then (st, [])
    else
      let orderbook_id := data.orderbook_id.getD ""
      let resolution :=
        if pyTruthy data.resolution then data.resolution.getD "" else "1m"
      let key := (orderbook_id, resolution)
      match dictGet? st.price_histories key with
      | some ph =>
        ({ st with
            price_histories :=
              dictSet st.price_histories key (ph.apply_event data) },
          [mkPriceUpdateEvent orderbook_id resolution])
      | none =>
        if data.event_type = "snapshot" then
          let ph :=
            (mkPriceHistory orderbook_id resolution
              (data.include_ohlcv.getD false)).apply_event data
          ({ st with
              price_histories := dictSet st.price_histories key ph },
            [mkPriceUpdateEvent orderbook_id resolution])
        else (st, [mkPriceUpdateEvent orderbook_id resolution])

/-- `MessageHandler._handle_market_event` (handlers.py lines 164–172). -/
def MessageHandler.handle_market_event (st : MessageHandler)
    (raw : RawWsMessage) : MessageHandler × List WsEvent :=
  match decodeMarketEventData raw.data with
  | .error e => (st, [mkErrorEvent (.messageParseError (pyExnMsg e))])
  | .ok data => (st, [mkMarketEvent data.event_type data.market_pubkey])

/-- `MessageHandler._handle_error` (handlers.py lines 174–186). -/
def MessageHandler.handle_error (st : MessageHandler) (raw : RawWsMessage) :
    MessageHandler × List WsEvent :=
  match decodeErrorData raw.data with
  | .error e => (st, [mkErrorEvent (.messageParseError (pyExnMsg e))])
  | .ok data => (st, [mkErrorEvent (.serverError data.code data.error)])

/-- The outcome of `json.loads(text)` on the inbound frame. -/
inductive LoadResult where
  | malformed (msg : String)
  | value (v : PyVal)

/-- `MessageHandler.handle_message` (handlers.py lines 33–60).  The leading
`try` covers `json.loads` and `RawWsMessage.from_dict` but catches only
`json.JSONDecodeError`; any other exception from that block escapes the
method, which is why the result is an `Except`. -/
def MessageHandler.handle_message (st : MessageHandler) (input : LoadResult) :
    Except PyExn (MessageHandler × List WsEvent) :=
  let parsed :=
    match input with
    | .malformed msg => Except.error (PyExn.jsonDecodeError msg)
    | .value v => RawWsMessage.from_dict v
  match parsed with
  | .error (.jsonDecodeError msg) =>
    .ok (st, [mkErrorEvent (.messageParseError msg)])
  | .error e => .error e
  | .ok raw =>
    let t := msgTypeOf raw.type_
    if t = "book_update" then .ok (st.handle_book_update raw)
    else if t = "trades" then .ok (st.handle_trade raw)
    else if t = "user" then .ok (st.handle_user_event raw)
    else if t = "price_history" then .ok (st.handle_price_history raw)
    else if t = "market" then .ok (st.handle_market_event raw)
    else if t = "error" then .ok (st.handle_error raw)
    else if t = "pong" then .ok (st, [mkPongEvent])
    else .ok (st, [])

/-! ## Concrete fixtures used by witness theorems -/

/-- The spec's price-history scenario: snapshot `[t=100, t=90]`, update for
the unknown `t=110`, then a replacing update for the known `t=100`. -/
def demoSnapshotEvent : PriceHistoryData :=
  { event_type := "snapshot", prices := [{ t := 100 }, { t := 90 }] }

/-- Update event carrying the inline candle `t=110`. -/
def demoUpdate110 : PriceHistoryData :=
  { event_type := "update", t := some 110 }

/-- Update event replacing the candle at the known `t=100`. -/
def demoUpdate100 : PriceHistoryData :=
  { event_type := "update", t := some 100, c := some "5" }

/-- The three scenario events in order. -/
def demoEvents : List PriceHistoryData :=
  [demoSnapshotEvent, demoUpdate110, demoUpdate100]

/-- The replica after applying the scenario snapshot to a fresh history. -/
def demoHistory : PriceHistory :=
  (mkPriceHistory "ob" "1m").apply_snapshot demoSnapshotEvent

/-- A stored balance entry under market "M" with deposit asset "X" and an
empty outcome array. -/
def demoBalanceEntryOld : BalanceEntry :=
  { market_pubkey := "M", deposit_mint := "X", outcomes := [] }

/-- A non-empty outcome array carried by an incoming balance payload. -/
def demoOutcomes : List OutcomeBalance :=
  [{ outcome_index := 0, mint := "X", idle := "1", on_book := "2" }]

/-- A user replica holding one balance entry keyed "M:X". -/
def demoUserState : UserState :=
  { user := "u", balances := [("M:X", demoBalanceEntryOld)] }

/-- A `balance_update` event carrying a market and a balance but no
deposit-asset. -/
def demoBalanceUpdateNoMint : UserEventData :=
  { event_type := "balance_update", market_pubkey := some "M",
    balance := some { outcomes := demoOutcomes } }

/-- An incoming order update for hash "h1" with the given remaining/filled. -/
def demoOrderUpd (remaining filled : String) : OrderUpdate :=
  { order_hash := "h1", price := "0.5", fill_amount := "0",
    remaining := remaining, filled := filled, side := 0, is_maker := true,
    created_at := 7 }

/-- An `order_update` event with full context (market and orderbook id). -/
def demoOrderEventFull (remaining filled : String) : UserEventData :=
  { event_type := "order_update", market_pubkey := some "M",
    orderbook_id := some "OB", order := some (demoOrderUpd remaining filled) }

/-- An `order_update` event with no market/orderbook context. -/
def demoOrderEventBare (remaining filled : String) : UserEventData :=
  { event_type := "order_update", order := some (demoOrderUpd remaining filled) }

/-- A user replica already holding the order "h1". -/
def demoUserWithOrder : UserState :=
  { user := "u",
    orders := [("h1",
      synthesizedOrder (demoOrderEventFull "2" "0") (demoOrderUpd "2" "0"))] }

/-! ## Association-list dictionary lemmas -/

theorem mem_dictKeys [DecidableEq α] (d : PyDict α β) (k : α) :
    k ∈ dictKeys d ↔ ∃ v, (k, v) ∈ d := by
  constructor
  · intro h
    rcases List.mem_map.mp h with ⟨⟨k1, v1⟩, hmem, hk⟩
    exact ⟨v1, by simpa [← hk] using hmem⟩
  · rintro ⟨v, hv⟩
    exact List.mem_map.mpr ⟨(k, v), hv, rfl⟩

theorem dictWF_cons [DecidableEq α] {k1 : α} {v1 : β} {rest : PyDict α β}
    (hWF : dictWF ((k1, v1) :: rest)) :
    k1 ∉ dictKeys rest ∧ dictWF rest :=
  List.nodup_cons.mp hWF

theorem dictGet?_dictSet [DecidableEq α] (d : PyDict α β) (k : α) (v : β)
    (p : α) :
    dictGet? (dictSet d k v) p = if k = p then some v else dictGet? d p := by
  induction d with
  | nil =>
    by_cases h : k = p <;> simp [dictSet, dictGet?, h]
  | cons kv rest ih =>
    obtain ⟨k1, v1⟩ := kv
    by_cases h1 : k1 = k
    · subst h1
      by_cases h2 : k1 = p <;> simp [dictSet, dictGet?, h2]
    · by_cases h2 : k1 = p
      · subst h2
        have hkp : ¬ k = k1 := fun h => h1 h.symm
        simp [dictSet, dictGet?, h1, hkp]
      · simp [dictSet, dictGet?, h1, h2, ih]

theorem dictGet?_eq_none_iff [DecidableEq α] (d : PyDict α β) (k : α) :
    dictGet? d k = none ↔ k ∉ dictKeys d := by
  induction d with
  | nil => simp [dictGet?, dictKeys]
  | cons kv rest ih =>
    obtain ⟨k1, v1⟩ := kv
    by_cases h1 : k1 = k
    · subst h1
      simp [dictGet?, dictKeys]
    · have h1s : ¬ k = k1 := fun h => h1 h.symm
      simp [dictGet?, dictKeys, h1, h1s, ih]

theorem mem_keys_of_dictGet?_eq_some [DecidableEq α] {d : PyDict α β} {k : α}
    {v : β} (h : dictGet? d k = some v) : k ∈ dictKeys d := by
  by_contra hmem
  rw [← dictGet?_eq_none_iff] at hmem
  rw [h] at hmem
  cases hmem

theorem dictGet?_dictPop [DecidableEq α] (d : PyDict α β) (k p : α)
    (hWF : dictWF d) :
    dictGet? (dictPop d k) p = if k = p then none else dictGet? d p := by
  induction d with
  | nil =>
    by_cases h : k = p <;> simp [dictPop, dictGet?, h]
  | cons kv rest ih =>
    obtain ⟨k1, v1⟩ := kv
    obtain ⟨hk1, hrest⟩ := dictWF_cons hWF
    by_cases h1 : k1 = k
    · subst h1
      by_cases h2 : k1 = p
      · subst h2
        have hnone : dictGet? rest k1 = none :=
          (dictGet?_eq_none_iff rest k1).mpr hk1
        simp [dictPop, hnone]
      · simp [dictPop, dictGet?, h2]
    · by_cases h2 : k1 = p
      · subst h2
        have hkp : ¬ k = k1 := fun h => h1 h.symm
        simp [dictPop, dictGet?, h1, hkp]
      · simp [dictPop, dictGet?, h1, h2, ih hrest]

theorem dictKeys_dictSet [DecidableEq α] (d : PyDict α β) (k : α) (v : β) :
    dictKeys (dictSet d k v) =
      if k ∈ dictKeys d then dictKeys d else dictKeys d ++ [k] := by
  induction d with
  | nil => simp [dictSet, dictKeys]
  | cons kv rest ih =>
    obtain ⟨k1, v1⟩ := kv
    by_cases h1 : k1 = k
    · subst h1
      simp [dictSet, dictKeys]
    · have h1s : ¬ k = k1 := fun h => h1 h.symm
      have ih2 : List.map Prod.fst (dictSet rest k v) =
          if k ∈ List.map Prod.fst rest then List.map Prod.fst rest
          else List.map Prod.fst rest ++ [k] := ih
      by_cases h2 : k ∈ List.map Prod.fst rest <;>
        simp [dictSet, dictKeys, h1, h1s, h2, ih2, List.mem_cons]

theorem dictWF_dictSet [DecidableEq α] {d : PyDict α β} (k : α) (v : β)
    (hWF : dictWF d) : dictWF (dictSet d k v) := by
  unfold dictWF
  rw [dictKeys_dictSet]
  by_cases h : k ∈ dictKeys d
  · simpa [h] using hWF
  · simp only [h, if_false]
    rw [List.nodup_append]
    exact ⟨hWF, List.nodup_singleton k, by simpa using fun hx => h hx⟩

theorem dictKeys_dictPop_sublist [DecidableEq α] (d : PyDict α β) (k : α) :
    List.Sublist (dictKeys (dictPop d k)) (dictKeys d) := by
  induction d with
  | nil => simp [dictPop, dictKeys]
  | cons kv rest ih =>
    obtain ⟨k1, v1⟩ := kv
    by_cases h1 : k1 = k
    · subst h1
      simp only [dictPop, if_pos rfl, dictKeys, List.map_cons]
      exact List.sublist_cons_self k1 (List.map Prod.fst rest)
    · simpa [dictPop, dictKeys, h1] using List.Sublist.cons₂ k1 ih

theorem dictWF_dictPop [DecidableEq α] {d : PyDict α β} (k : α)
    (hWF : dictWF d) : dictWF (dictPop d k) :=
  List.Nodup.sublist (dictKeys_dictPop_sublist d k) hWF

theorem mem_of_dictGet?_eq_some [DecidableEq α] {d : PyDict α β} {k : α}
    {v : β} (h : dictGet? d k = some v) : (k, v) ∈ d := by
  induction d with
  | nil => cases h
  | cons kv rest ih =>
    obtain ⟨k1, v1⟩ := kv
    by_cases h1 : k1 = k
    · subst h1
      simp only [dictGet?, if_pos rfl] at h
      cases h
      exact List.mem_cons_self _ _
    · simp only [dictGet?, if_neg h1] at h
      exact List.mem_cons_of_mem _ (ih h)

theorem dictGet?_eq_some_of_mem [DecidableEq α] {d : PyDict α β} {k : α}
    {v : β} (hWF : dictWF d) (h : (k, v) ∈ d) : dictGet? d k = some v := by
  induction d with
  | nil => cases h
  | cons kv rest ih =>
    obtain ⟨k1, v1⟩ := kv
    obtain ⟨hk1, hrest⟩ := dictWF_cons hWF
    rcases List.mem_cons.mp h with heq | hmem
    · cases heq
      simp [dictGet?]
    · have hne : k1 ≠ k := by
        intro he
        subst he
        exact hk1 ((mem_dictKeys rest k1).mpr ⟨v, hmem⟩)
      simp [dictGet?, hne, ih hrest hmem]

theorem mem_dictPop_iff [DecidableEq α] {d : PyDict α β} {k0 : α}
    (hWF : dictWF d) (k : α) (v : β) :
    (k, v) ∈ dictPop d k0 ↔ (k, v) ∈ d ∧ k ≠ k0 := by
  induction d with
  | nil => simp [dictPop]
  | cons kv rest ih =>
    obtain ⟨k1, v1⟩ := kv
    obtain ⟨hk1, hrest⟩ := dictWF_cons hWF
    by_cases h1 : k1 = k0
    · subst h1
      simp only [dictPop, if_pos rfl]
      constructor
      · intro hmem
        refine ⟨List.mem_cons_of_mem _ hmem, ?_⟩
        intro he
        subst he
        exact hk1 ((mem_dictKeys rest k).mpr ⟨v, hmem⟩)
      · rintro ⟨hmem, hne⟩
        rcases List.mem_cons.mp hmem with heq | hmem2
        · cases heq
          exact absurd rfl hne
        · exact hmem2
    · simp only [dictPop, if_neg h1, List.mem_cons, ih hrest]
      constructor
      · rintro (heq | ⟨hmem, hne⟩)
        · cases heq
          exact ⟨Or.inl rfl, fun he => h1 he⟩
        · exact ⟨Or.inr hmem, hne⟩
      · rintro ⟨heq | hmem, hne⟩
        · exact Or.inl heq
        · exact Or.inr ⟨hmem, hne⟩

theorem dictSet_eq_append [DecidableEq α] {d : PyDict α β} {k : α} (v : β)
    (h : k ∉ dictKeys d) : dictSet d k v = d ++ [(k, v)] := by
  induction d with
  | nil => simp [dictSet]
  | cons kv rest ih =>
    obtain ⟨k1, v1⟩ := kv
    simp only [dictKeys, List.map_cons, List.mem_cons] at h
    push_neg at h
    obtain ⟨h1, h2⟩ := h
    have h1s : k1 ≠ k := fun he => h1 he.symm
    simp [dictSet, h1s, ih h2]

/-! ## C1: delta application -/

theorem dictWF_applyDeltaLevels (levels : List PriceLevel) :
    ∀ m : PyDict String String, dictWF m → dictWF (applyDeltaLevels m levels) := by
  induction levels with
  | nil => intro m h; exact h
  | cons lv rest ih =>
    intro m h
    show dictWF (applyDeltaLevels
      (if is_zero_size lv.size then dictPop m lv.price
        else dictSet m lv.price lv.size) rest)
    by_cases hz : is_zero_size lv.size
    · simpa [hz] using ih _ (dictWF_dictPop lv.price h)
    · simpa [hz] using ih _ (dictWF_dictSet lv.price lv.size h)

theorem dictGet?_applyDeltaLevels (levels : List PriceLevel) :
    ∀ (m : PyDict String String) (p : String), dictWF m →
      dictGet? (applyDeltaLevels m levels) p =
        match lastLevelFor levels p with
        | some lv => if is_zero_size lv.size then none else some lv.size
        | none => dictGet? m p := by
  induction levels with
  | nil => intro m p _; rfl
  | cons lv rest ih =>
    intro m p hWF
    have hstep : applyDeltaLevels m (lv :: rest) =
        applyDeltaLevels
          (if is_zero_size lv.size then dictPop m lv.price
            else dictSet m lv.price lv.size) rest := by
      simp [applyDeltaLevels]
    have hWF2 : dictWF
        (if is_zero_size lv.size then dictPop m lv.price
          else dictSet m lv.price lv.size) := by
      by_cases hz : is_zero_size lv.size
      · simpa [hz] using dictWF_dictPop lv.price hWF
      · simpa [hz] using dictWF_dictSet lv.price lv.size hWF
    rw [hstep, ih _ p hWF2]
    rcases hlast : lastLevelFor rest p with _ | x
    · show (dictGet?
        (if is_zero_size lv.size then dictPop m lv.price
          else dictSet m lv.price lv.size) p) =
        (match (match lastLevelFor rest p with
          | some x => some x
          | none => if lv.price = p then some lv else none :
            Option PriceLevel) with
        | some lv2 => if is_zero_size lv2.size then none else some lv2.size
        | none => dictGet? m p)
      rw [hlast]
      by_cases hp : lv.price = p
      · subst hp
        by_cases hz : is_zero_size lv.size
        · simp [hz, dictGet?_dictPop _ _ _ hWF]
        · simp [hz, dictGet?_dictSet]
      · by_cases hz : is_zero_size lv.size
        · simp [hz, hp, dictGet?_dictPop _ _ _ hWF]
        · simp [hz, hp, dictGet?_dictSet]
    · show _ = (match (match lastLevelFor rest p with
          | some x => some x
          | none => if lv.price = p then some lv else none :
            Option PriceLevel) with
        | some lv2 => if is_zero_size lv2.size then none else some lv2.size
        | none => dictGet? m p)
      rw [hlast]

/-- C1.  A delta whose `seq` differs from `expectedSeq` returns the replica
unchanged in every field and signals the gap as `(expectedSeq, seq)`; a delta
whose `seq` matches raises nothing, advances `expectedSeq` to `seq + 1`, and
pointwise on each side the surviving entry for a price is the delta's last
level for that price (absent if its size is zero) and otherwise the prior
entry.  The `dictWF` hypotheses say the replica's sides are genuine Python
dicts (no duplicate keys). -/
theorem c1_apply_delta_spec (book : LocalOrderbook) (update : BookUpdateData)
    (hb : dictWF book.bids) (ha : dictWF book.asks) :
    (update.seq ≠ book.expected_seq →
      book.apply_delta update = (book, some (book.expected_seq, update.seq))) ∧
    (update.seq = book.expected_seq →
      (book.apply_delta update).2 = none ∧
      (book.apply_delta update).1.expected_seq = update.seq + 1 ∧
      (book.apply_delta update).1.has_snapshot = book.has_snapshot ∧
      (∀ p, (book.apply_delta update).1.bid_size_at p =
        match lastLevelFor update.bids p with
        | some lv => if is_zero_size lv.size then none else some lv.size
        | none => book.bid_size_at p) ∧
      (∀ p, (book.apply_delta update).1.ask_size_at p =
        match lastLevelFor update.asks p with
        | some lv => if is_zero_size lv.size then none else some lv.size
        | none => book.ask_size_at p)) := by
  constructor
  · intro hne
    simp [LocalOrderbook.apply_delta, hne]
  · intro heq
    refine ⟨?_, ?_, ?_, ?_, ?_⟩
    · simp [LocalOrderbook.apply_delta, heq]
    · simp [LocalOrderbook.apply_delta, heq]
    · simp [LocalOrderbook.apply_delta, heq]
    · intro p
      simp only [LocalOrderbook.apply_delta, heq, ne_eq, not_true_eq_false,
        if_false, LocalOrderbook.bid_size_at]
      exact dictGet?_applyDeltaLevels update.bids book.bids p hb
    · intro p
      simp only [LocalOrderbook.apply_delta, heq, ne_eq, not_true_eq_false,
        if_false, LocalOrderbook.ask_size_at]
      exact dictGet?_applyDeltaLevels update.asks book.asks p ha

/-- Witness for C1 at a concrete replica and delta, one instance per branch:
a gap at `expectedSeq = 0` against `seq = 5`, and a matching delta that
upserts one level and removes another. -/
theorem c1_apply_delta_spec_witness :
    ((mkLocalOrderbook "ob").apply_delta
        { orderbook_id := "ob", seq := 5 } =
      (mkLocalOrderbook "ob", some (0, 5))) ∧
    (({ orderbook_id := "ob", bids := [("1.00", "5"), ("0.99", "2")],
        expected_seq := 7 : LocalOrderbook }.apply_delta
        { orderbook_id := "ob", seq := 7,
          bids := [{ side := "bid", price := "1.00", size := "0" },
                   { side := "bid", price := "1.01", size := "3" }] }).1.bid_size_at
        "1.00" = none) := by
  constructor
  · exact (c1_apply_delta_spec (mkLocalOrderbook "ob")
      { orderbook_id := "ob", seq := 5 } (by unfold dictWF; decide)
      (by unfold dictWF; decide)).1 (by decide)
  · have h := ((c1_apply_delta_spec
      { orderbook_id := "ob", bids := [("1.00", "5"), ("0.99", "2")],
        expected_seq := 7 }
      { orderbook_id := "ob", seq := 7,
        bids := [{ side := "bid", price := "1.00", size := "0" },
                 { side := "bid", price := "1.01", size := "3" }] }
      (by unfold dictWF; decide) (by unfold dictWF; decide)).2
      (by decide)).2.2.2.1 "1.00"
    rw [h]
    decide

/-! ## C3: zero-size detection semantics -/

theorem pyFloatIsZero_zero_mantissa (e : Int) : pyFloatIsZero 0 e = true := by
  unfold pyFloatIsZero
  split <;> simp

theorem is_zero_size_eq_pyFloatIsZero {s : String} {m e : Int}
    (h : parseDec s = some (m, e)) : is_zero_size s = pyFloatIsZero m e := by
  unfold is_zero_size
  by_cases hsp : s = "0" ∨ s = "0.0" ∨ s = "0.000000"
  · rw [if_pos hsp]
    rcases hsp with h0 | h0 | h0
    · rw [h0] at h
      rw [(by decide : parseDec "0" = some (0, 0))] at h
      obtain ⟨hm, he⟩ := Prod.mk.injEq .. ▸ Option.some.injEq .. ▸ h
      rw [← hm]
      exact (pyFloatIsZero_zero_mantissa e).symm
    · rw [h0] at h
      rw [(by decide : parseDec "0.0" = some (0, -1))] at h
      obtain ⟨hm, he⟩ := Prod.mk.injEq .. ▸ Option.some.injEq .. ▸ h
      rw [← hm]
      exact (pyFloatIsZero_zero_mantissa e).symm
    · rw [h0] at h
      rw [(by decide : parseDec "0.000000" = some (0, -6))] at h
      obtain ⟨hm, he⟩ := Prod.mk.injEq .. ▸ Option.some.injEq .. ▸ h
      rw [← hm]
      exact (pyFloatIsZero_zero_mantissa e).symm
  · rw [if_neg hsp, h]

/-- Counterexample to C3 as stated: the size string `"1e-400"` has exact
decimal value `1·10^(-400) ≠ 0`, yet `is_zero_size` treats it as zero —
`float("1e-400")` underflows to `0.0` — so a matching delta carrying it
removes/never stores the level, and the level is absent from query results
instead of staying visible. -/
theorem c3_counterexample :
    parseDec "1e-400" = some (1, -400) ∧
    (1 : Int) ≠ 0 ∧
    is_zero_size "1e-400" = true ∧
    ((mkLocalOrderbook "ob").apply_delta
        { orderbook_id := "ob", seq := 0,
          bids := [{ side := "bid", price := "1.00", size := "1e-400" }] }).2
      = none ∧
    ((mkLocalOrderbook "ob").apply_delta
        { orderbook_id := "ob", seq := 0,
          bids := [{ side := "bid", price := "1.00", size := "1e-400" }] }).1.bid_size_at
      "1.00" = none := by
  refine ⟨by decide, by decide, by decide, by decide, by decide⟩

/-- C3 amended: zero-size detection follows the binary64 value of the size
string, not its exact decimal value.  For a matching single-level delta on
the bid side: a size of exact value zero (`m = 0`) is always treated as zero
and the level is removed; but the level is removed exactly when
`pyFloatIsZero m e` holds, i.e. when `|m·10^e| ≤ 2^(-1075)` — so non-zero
sizes below that threshold are also dropped, and only sizes above it stay
visible in query results. -/
theorem c3_amended_float_zero (book : LocalOrderbook) (u : BookUpdateData)
    (sd p s : String) (m e : Int)
    (hWF : dictWF book.bids)
    (hseq : u.seq = book.expected_seq)
    (hbids : u.bids = [{ side := sd, price := p, size := s }])
    (hparse : parseDec s = some (m, e)) :
    (m = 0 → pyFloatIsZero m e = true) ∧
    (pyFloatIsZero m e = true → (book.apply_delta u).1.bid_size_at p = none) ∧
    (pyFloatIsZero m e = false →
      (book.apply_delta u).1.bid_size_at p = some s) := by
  have hne : ¬ u.seq ≠ book.expected_seq := by
    rw [hseq]
    exact fun hc => hc rfl
  have hres : (book.apply_delta u).1.bid_size_at p =
      dictGet? (applyDeltaLevels book.bids u.bids) p := by
    simp [LocalOrderbook.apply_delta, hne, LocalOrderbook.bid_size_at]
  have hchar := dictGet?_applyDeltaLevels u.bids book.bids p hWF
  rw [hbids] at hchar
  have hlast : lastLevelFor [{ side := sd, price := p, size := s }] p =
      some { side := sd, price := p, size := s } := by
    simp [lastLevelFor]
  rw [hlast] at hchar
  have hz : is_zero_size s = pyFloatIsZero m e :=
    is_zero_size_eq_pyFloatIsZero hparse
  refine ⟨fun hm => by rw [hm]; exact pyFloatIsZero_zero_mantissa e, ?_, ?_⟩
  · intro hfz
    rw [hres, hbids, hchar]
    simp [hz, hfz]
  · intro hfz
    rw [hres, hbids, hchar]
    simp [hz, hfz]

/-- Witness for C3 amended: size `"0.5"` (value `5·10^(-1)`, above the
underflow threshold) survives a matching delta; its parse and the threshold
check are evaluated concretely. -/
theorem c3_amended_float_zero_witness :
    parseDec "0.5" = some (5, -1) ∧
    pyFloatIsZero 5 (-1) = false ∧
    ((mkLocalOrderbook "ob").apply_delta
        { orderbook_id := "ob", seq := 0,
          bids := [{ side := "bid", price := "1.00", size := "0.5" }] }).1.bid_size_at
      "1.00" = some "0.5" := by
  refine ⟨by decide, by decide, ?_⟩
  exact (c3_amended_float_zero (mkLocalOrderbook "ob")
    { orderbook_id := "ob", seq := 0,
      bids := [{ side := "bid", price := "1.00", size := "0.5" }] }
    "bid" "1.00" "0.5" 5 (-1) (by unfold dictWF; decide) (by decide) rfl
    (by decide)).2.2 (by decide)

/-! ## Price-history invariant lemmas -/

theorem candleTs_set (cs : List Candle) (i : Nat) (c : Candle) :
    candleTs (cs.set i c) = (candleTs cs).set i c.t := by
  simp [candleTs, List.map_set]

theorem set_self_of_getElem? (l : List Int) :
    ∀ (i : Nat) (t : Int), l[i]? = some t → l.set i t = l := by
  induction l with
  | nil => intro i t h; cases h
  | cons a rest ih =>
    intro i t h
    cases i with
    | zero =>
      simp only [List.getElem?_cons_zero, Option.some.injEq] at h
      simp [h]
    | succ j =>
      simp only [List.getElem?_cons_succ] at h
      simp [ih j t h]

theorem candleTs_insertIdx (cs : List Candle) :
    ∀ (pos : Nat) (c : Candle),
      candleTs (cs.insertIdx pos c) = (candleTs cs).insertIdx pos c.t := by
  induction cs with
  | nil =>
    intro pos c
    cases pos <;> simp [candleTs, List.insertIdx]
  | cons a rest ih =>
    intro pos c
    cases pos with
    | zero => simp [candleTs, List.insertIdx]
    | succ j =>
      simp [candleTs, List.insertIdx_succ_cons] at *
      exact ih j c

theorem findIdx_candleTs (x : Int) (cs : List Candle) :
    cs.findIdx (fun cd => cd.t < x) = (candleTs cs).findIdx (fun v => v < x) := by
  induction cs with
  | nil => simp [candleTs]
  | cons a rest ih =>
    simp only [candleTs, List.map_cons, List.findIdx_cons]
    rw [show candleTs rest = rest.map Candle.t from rfl] at ih
    rw [ih]

theorem getElem?_insertIdx_lt (l : List Int) (x : Int) (pos i : Nat)
    (hpos : pos ≤ l.length) (h : i < pos) :
    (l.insertIdx pos x)[i]? = l[i]? := by
  have hi : i < l.length := lt_of_lt_of_le h hpos
  have hlen : (l.insertIdx pos x).length = l.length + 1 :=
    List.length_insertIdx pos l hpos
  rw [List.getElem?_eq_getElem (by omega), List.getElem?_eq_getElem hi]
  rw [List.getElem_insertIdx_of_lt l x pos i h hi]

theorem getElem?_insertIdx_self (l : List Int) (x : Int) (pos : Nat)
    (hpos : pos ≤ l.length) :
    (l.insertIdx pos x)[pos]? = some x := by
  have hlen : (l.insertIdx pos x).length = l.length + 1 :=
    List.length_insertIdx pos l hpos
  rw [List.getElem?_eq_getElem (by omega)]
  rw [List.getElem_insertIdx_self l x pos hpos]

theorem getElem?_insertIdx_succ (l : List Int) (x : Int) (pos k : Nat)
    (hpos : pos ≤ l.length) :
    (l.insertIdx pos x)[pos + k + 1]? = l[pos + k]? := by
  have hlen : (l.insertIdx pos x).length = l.length + 1 :=
    List.length_insertIdx pos l hpos
  by_cases hk : pos + k < l.length
  · rw [List.getElem?_eq_getElem (by omega), List.getElem?_eq_getElem hk]
    rw [List.getElem_insertIdx_add_succ l x pos k hk]
  · rw [List.getElem?_eq_none (by omega), List.getElem?_eq_none (by omega)]

theorem sorted_insertIdx_findIdx (x : Int) :
    ∀ ts : List Int, List.Sorted (fun a b => b < a) ts → x ∉ ts →
      List.Sorted (fun a b => b < a)
        (ts.insertIdx (ts.findIdx (fun v => decide (v < x))) x) := by
  intro ts
  induction ts with
  | nil =>
    intro _ _
    simp [List.insertIdx]
  | cons a rest ih =>
    intro hs hx
    have hsrest : List.Sorted (fun a b => b < a) rest :=
      (List.sorted_cons.mp hs).2
    have halt : ∀ b ∈ rest, b < a := (List.sorted_cons.mp hs).1
    have hxa : x ≠ a := fun h => hx (h ▸ List.mem_cons_self a rest)
    have hxr : x ∉ rest := fun h => hx (List.mem_cons_of_mem a h)
    by_cases hlt : a < x
    · have hpa : (decide (a < x)) = true := decide_eq_true hlt
      simp only [List.findIdx_cons, hpa, cond_true, List.insertIdx_zero]
      refine List.sorted_cons.mpr ⟨?_, hs⟩
      intro b hb
      rcases List.mem_cons.mp hb with hb | hb
      · exact hb ▸ hlt
      · exact lt_trans (halt b hb) hlt
    · have hax : x < a := by
        rcases lt_or_eq_of_le (not_lt.mp hlt) with h | h
        · exact h
        · exact absurd h hxa
      have hpa : (decide (a < x)) = false := decide_eq_false hlt
      simp only [List.findIdx_cons, hpa, cond_false]
      rw [List.insertIdx_succ_cons]
      refine List.sorted_cons.mpr ⟨?_, ih hsrest hxr⟩
      intro b hb
      have hpos : rest.findIdx (fun v => decide (v < x)) ≤ rest.length :=
        List.findIdx_le_length (fun v => decide (v < x))
      rcases (List.mem_insertIdx hpos).mp hb with hb | hb
      · exact hb ▸ hax
      · exact halt b hb

theorem getElem?_concat_iff (l : List Int) (x t : Int) (i : Nat) :
    (l ++ [x])[i]? = some t ↔
      (l[i]? = some t ∨ (i = l.length ∧ t = x)) := by
  by_cases hi : i < l.length
  · rw [List.getElem?_append]
    simp only [hi, if_true]
    constructor
    · exact fun h => Or.inl h
    · rintro (h | ⟨hlen, _⟩)
      · exact h
      · omega
  · by_cases hieq : i = l.length
    · subst hieq
      rw [List.getElem?_concat_length]
      have hnone : l[l.length]? = none := List.getElem?_eq_none (le_refl _)
      rw [hnone]
      constructor
      · intro h
        exact Or.inr ⟨rfl, (Option.some.injEq .. ▸ h).symm⟩
      · rintro (h | ⟨_, ht⟩)
        · cases h
        · rw [ht]
    · have h1 : (l ++ [x])[i]? = none := by
        apply List.getElem?_eq_none
        simp only [List.length_append, List.length_singleton]
        omega
      have h2 : l[i]? = none := List.getElem?_eq_none (by omega)
      rw [h1, h2]
      constructor
      · intro h
        cases h
      · rintro (h | ⟨hlen, _⟩)
        · cases h
        · exact absurd hlen hieq

theorem mem_iff_exists_getElem? (l : List Int) (x : Int) :
    x ∈ l ↔ ∃ i : Nat, l[i]? = some x := by
  constructor
  · intro h
    rcases List.mem_iff_getElem.mp h with ⟨i, hi, he⟩
    exact ⟨i, by rw [List.getElem?_eq_getElem hi, he]⟩
  · rintro ⟨i, hi⟩
    rcases List.getElem?_eq_some.mp hi with ⟨hl, he⟩
    exact he ▸ List.getElem_mem hl

theorem nodup_getElem?_inj {l : List Int} (hnd : l.Nodup) {i j : Nat}
    {y : Int} (h1 : l[i]? = some y) (h2 : l[j]? = some y) : i = j := by
  rcases List.getElem?_eq_some.mp h1 with ⟨hi, hei⟩
  rcases List.getElem?_eq_some.mp h2 with ⟨hj, hej⟩
  exact List.Nodup.getElem_inj_iff hnd |>.mp (by rw [hei, hej])

theorem insert_index_mem_iff (ts : List Int) (idx : PyDict Int Nat) (x : Int)
    (pos : Nat) (hpos : pos ≤ ts.length) (hx : x ∉ ts)
    (hok : ∀ t i, (t, i) ∈ idx ↔ ts[i]? = some t) :
    ∀ t i,
      (t, i) ∈
        (idx.map (fun kv => (kv.1, if pos ≤ kv.2 then kv.2 + 1 else kv.2)) ++
          [(x, pos)]) ↔
      (ts.insertIdx pos x)[i]? = some t := by
  intro t i
  constructor
  · intro h
    rcases List.mem_append.mp h with h | h
    · rcases List.mem_map.mp h with ⟨⟨t0, j⟩, hmem, heq⟩
      cases heq
      have hj := (hok t0 j).mp hmem
      by_cases hpj : pos ≤ j
      · simp only [hpj, if_true]
        have hsplit : j + 1 = pos + (j - pos) + 1 := by omega
        rw [hsplit, getElem?_insertIdx_succ ts x pos (j - pos) hpos,
          show pos + (j - pos) = j from by omega]
        exact hj
      · simp only [hpj, if_false]
        rw [getElem?_insertIdx_lt ts x pos j hpos (by omega)]
        exact hj
    · rcases List.mem_singleton.mp h with heq
      cases heq
      rw [getElem?_insertIdx_self ts x pos hpos]
  · intro h
    rcases Nat.lt_trichotomy i pos with hip | hip | hip
    · rw [getElem?_insertIdx_lt ts x pos i hpos hip] at h
      refine List.mem_append.mpr (Or.inl ?_)
      refine List.mem_map.mpr ⟨(t, i), (hok t i).mpr h, ?_⟩
      simp [Nat.not_le.mpr hip]
    · subst hip
      rw [getElem?_insertIdx_self ts x i hpos] at h
      have ht : x = t := Option.some.injEq .. ▸ h
      subst ht
      exact List.mem_append.mpr (Or.inr (List.mem_singleton.mpr rfl))
    · obtain ⟨k, hk⟩ : ∃ k, i = pos + k + 1 := ⟨i - pos - 1, by omega⟩
      subst hk
      rw [getElem?_insertIdx_succ ts x pos k hpos] at h
      refine List.mem_append.mpr (Or.inl ?_)
      refine List.mem_map.mpr ⟨(t, pos + k), (hok t (pos + k)).mpr h, ?_⟩
      simp [show pos ≤ pos + k from by omega]

theorem insert_index_wf (ts : List Int) (idx : PyDict Int Nat) (x : Int)
    (pos : Nat) (hx : x ∉ ts) (hWF : dictWF idx)
    (hok : ∀ t i, (t, i) ∈ idx ↔ ts[i]? = some t) :
    dictWF
      (idx.map (fun kv => (kv.1, if pos ≤ kv.2 then kv.2 + 1 else kv.2)) ++
        [(x, pos)]) := by
  have hkeys : dictKeys
      (idx.map (fun kv => (kv.1, if pos ≤ kv.2 then kv.2 + 1 else kv.2))) =
      dictKeys idx := by
    simp [dictKeys, List.map_map]
  have hxk : x ∉ dictKeys idx := by
    intro hmem
    rcases (mem_dictKeys idx x).mp hmem with ⟨v, hv⟩
    have := (hok x v).mp hv
    exact hx ((mem_iff_exists_getElem? ts x).mpr ⟨v, this⟩)
  unfold dictWF
  rw [dictKeys, List.map_append]
  rw [show List.map Prod.fst
      (idx.map (fun kv => (kv.1, if pos ≤ kv.2 then kv.2 + 1 else kv.2))) =
      dictKeys
        (idx.map (fun kv => (kv.1, if pos ≤ kv.2 then kv.2 + 1 else kv.2)))
    from rfl, hkeys]
  rw [List.nodup_append]
  exact ⟨hWF, List.nodup_singleton x, by simpa using fun hc => hxk hc⟩

theorem candleTs_dropLast (cs : List Candle) :
    candleTs cs.dropLast = (candleTs cs).dropLast :=
  List.map_dropLast Candle.t cs

theorem candleTs_getLast? (cs : List Candle) (hne : cs ≠ []) :
    (candleTs cs).getLast? = some (cs.getLast hne).t := by
  show (cs.map Candle.t).getLast? = _
  rw [List.getLast?_map, List.getLast?_eq_getLast cs hne]
  rfl

theorem trimGo_spec (fuel : Nat) :
    ∀ (cs : List Candle) (idx : PyDict Int Nat), cs.length ≤ 1000 + fuel →
      (candleTs cs).Nodup → dictWF idx →
      (∀ t i, (t, i) ∈ idx ↔ (candleTs cs)[i]? = some t) →
      (trimGo fuel cs idx).1 = cs.take 1000 ∧
      dictWF (trimGo fuel cs idx).2 ∧
      (∀ t i, (t, i) ∈ (trimGo fuel cs idx).2 ↔
        (candleTs (cs.take 1000))[i]? = some t) := by
  induction fuel with
  | zero =>
    intro cs idx hfuel hnd hWF hok
    have hstop : trimGo 0 cs idx = (cs, idx) := rfl
    have htake : cs.take 1000 = cs := List.take_of_length_le (by omega)
    rw [hstop, htake]
    exact ⟨rfl, hWF, hok⟩
  | succ fuel ih =>
    intro cs idx hfuel hnd hWF hok
    by_cases h1000 : 1000 < cs.length
    · have hne : cs ≠ [] := by
        intro h
        rw [h] at h1000
        simp at h1000
      have hlast : cs.getLast? = some (cs.getLast hne) :=
        List.getLast?_eq_getLast cs hne
      have hstep : trimGo (fuel + 1) cs idx =
          trimGo fuel cs.dropLast (dictPop idx (cs.getLast hne).t) := by
        simp only [trimGo]
        rw [if_pos h1000, hlast]
      have htsLen : (candleTs cs).length = cs.length := List.length_map ..
      have htsLast : (candleTs cs)[cs.length - 1]? =
          some (cs.getLast hne).t := by
        rw [← htsLen, ← List.getLast?_eq_getElem?]
        exact candleTs_getLast? cs hne
      have hdropTake : (candleTs cs).dropLast = (candleTs cs).take
          (cs.length - 1) := by
        rw [List.dropLast_eq_take, htsLen]
      have hndDrop : (candleTs cs.dropLast).Nodup := by
        rw [candleTs_dropLast]
        exact List.Nodup.sublist (List.dropLast_sublist _) hnd
      have hokDrop : ∀ t i, (t, i) ∈ dictPop idx (cs.getLast hne).t ↔
          (candleTs cs.dropLast)[i]? = some t := by
        intro t i
        rw [mem_dictPop_iff hWF t i, hok t i, candleTs_dropLast, hdropTake,
          List.getElem?_take]
        constructor
        · rintro ⟨hg, hne2⟩
          have hi : i < cs.length := by
            rcases List.getElem?_eq_some.mp hg with ⟨hi, _⟩
            rw [htsLen] at hi
            exact hi
          have hine : i ≠ cs.length - 1 := by
            intro he
            rw [he, htsLast] at hg
            exact hne2 (Option.some.injEq .. ▸ hg).symm
          rw [if_pos (by omega)]
          exact hg
        · intro hg
          by_cases hi : i < cs.length - 1
          · rw [if_pos hi] at hg
            refine ⟨hg, ?_⟩
            intro he
            subst he
            have := nodup_getElem?_inj hnd hg htsLast
            omega
          · rw [if_neg hi] at hg
            cases hg
      have hdl : cs.dropLast.length ≤ 1000 + fuel := by
        rw [List.length_dropLast]
        omega
      have hrec := ih cs.dropLast (dictPop idx (cs.getLast hne).t) hdl
        hndDrop (dictWF_dictPop _ hWF) hokDrop
      have htake : cs.dropLast.take 1000 = cs.take 1000 := by
        rw [List.dropLast_eq_take, List.take_take]
        congr 1
        omega
      rw [hstep]
      refine ⟨?_, hrec.2.1, ?_⟩
      · rw [hrec.1, htake]
      · intro t i
        rw [hrec.2.2 t i, htake]
    · have hstop : trimGo (fuel + 1) cs idx = (cs, idx) := by
        simp only [trimGo]
        rw [if_neg h1000]
      have htake : cs.take 1000 = cs :=
        List.take_of_length_le (by omega)
      rw [hstop, htake]
      exact ⟨rfl, hWF, hok⟩

theorem trimCandles_spec (cs : List Candle) (idx : PyDict Int Nat)
    (hnd : (candleTs cs).Nodup) (hWF : dictWF idx)
    (hok : ∀ t i, (t, i) ∈ idx ↔ (candleTs cs)[i]? = some t) :
    (trimCandles cs idx).1 = cs.take 1000 ∧
    dictWF (trimCandles cs idx).2 ∧
    (∀ t i, (t, i) ∈ (trimCandles cs idx).2 ↔
      (candleTs (cs.take 1000))[i]? = some t) :=
  trimGo_spec cs.length cs idx (by omega) hnd hWF hok

theorem update_or_append_known (ph : PriceHistory) (c : Candle) (i : Nat)
    (hget : dictGet? ph.candle_index c.t = some i)
    (hok : idxOk ph.candles ph.candle_index) :
    (ph.update_or_append_candle c).candles = ph.candles.set i c ∧
    (ph.update_or_append_candle c).candle_index = ph.candle_index ∧
    candleTs (ph.update_or_append_candle c).candles = candleTs ph.candles ∧
    (ph.update_or_append_candle c).candles.length = ph.candles.length := by
  have hmem : (c.t, i) ∈ ph.candle_index := mem_of_dictGet?_eq_some hget
  have hge : (candleTs ph.candles)[i]? = some c.t := (hok.2 c.t i).mp hmem
  have hts : candleTs (ph.candles.set i c) = candleTs ph.candles := by
    rw [candleTs_set]
    exact set_self_of_getElem? (candleTs ph.candles) i c.t hge
  have hcs : (ph.update_or_append_candle c).candles = ph.candles.set i c := by
    simp only [PriceHistory.update_or_append_candle, hget]
  have hidx : (ph.update_or_append_candle c).candle_index =
      ph.candle_index := by
    simp only [PriceHistory.update_or_append_candle, hget]
  refine ⟨hcs, hidx, ?_, ?_⟩
  · rw [hcs, hts]
  · rw [hcs, List.length_set]

theorem update_or_append_unknown (ph : PriceHistory) (c : Candle)
    (hget : dictGet? ph.candle_index c.t = none)
    (hs : sortedDescT ph.candles)
    (hok : idxOk ph.candles ph.candle_index) :
    (ph.update_or_append_candle c).candles =
      (ph.candles.insertIdx
        (ph.candles.findIdx (fun cd => cd.t < c.t)) c).take 1000 ∧
    sortedDescT (ph.update_or_append_candle c).candles ∧
    idxOk (ph.update_or_append_candle c).candles
      (ph.update_or_append_candle c).candle_index ∧
    (ph.update_or_append_candle c).candles.length ≤ 1000 := by
  have hnotmem : c.t ∉ candleTs ph.candles := by
    intro hmem
    rcases (mem_iff_exists_getElem? (candleTs ph.candles) c.t).mp hmem with
      ⟨j, hj⟩
    have : (c.t, j) ∈ ph.candle_index := (hok.2 c.t j).mpr hj
    have : dictGet? ph.candle_index c.t = some j :=
      dictGet?_eq_some_of_mem hok.1 this
    rw [hget] at this
    cases this
  have hpos : ph.candles.findIdx (fun cd => cd.t < c.t) ≤
      ph.candles.length := List.findIdx_le_length _
  have hposTs : ph.candles.findIdx (fun cd => cd.t < c.t) =
      (candleTs ph.candles).findIdx (fun v => v < c.t) :=
    findIdx_candleTs c.t ph.candles
  have htsLen : (candleTs ph.candles).length = ph.candles.length :=
    List.length_map ..
  have htsIns : candleTs (ph.candles.insertIdx
      (ph.candles.findIdx (fun cd => cd.t < c.t)) c) =
      (candleTs ph.candles).insertIdx
        (ph.candles.findIdx (fun cd => cd.t < c.t)) c.t :=
    candleTs_insertIdx ph.candles _ c
  have hsIns : List.Sorted (fun a b => b < a)
      (candleTs (ph.candles.insertIdx
        (ph.candles.findIdx (fun cd => cd.t < c.t)) c)) := by
    rw [htsIns, hposTs]
    exact sorted_insertIdx_findIdx c.t (candleTs ph.candles) hs hnotmem
  have hndIns : (candleTs (ph.candles.insertIdx
      (ph.candles.findIdx (fun cd => cd.t < c.t)) c)).Nodup :=
    List.Pairwise.imp (fun h => (ne_of_gt h)) hsIns
  have hsetapp : dictSet
      (ph.candle_index.map (fun kv =>
        (kv.1, if ph.candles.findIdx (fun cd => cd.t < c.t) ≤ kv.2 then
          kv.2 + 1 else kv.2)))
      c.t (ph.candles.findIdx (fun cd => cd.t < c.t)) =
      ph.candle_index.map (fun kv =>
        (kv.1, if ph.candles.findIdx (fun cd => cd.t < c.t) ≤ kv.2 then
          kv.2 + 1 else kv.2)) ++
        [(c.t, ph.candles.findIdx (fun cd => cd.t < c.t))] := by
    apply dictSet_eq_append
    intro hmem
    apply hnotmem
    have hkeys : dictKeys (ph.candle_index.map (fun kv =>
        (kv.1, if ph.candles.findIdx (fun cd => cd.t < c.t) ≤ kv.2 then
          kv.2 + 1 else kv.2))) = dictKeys ph.candle_index := by
      simp [dictKeys, List.map_map]
    rw [hkeys] at hmem
    rcases (mem_dictKeys ph.candle_index c.t).mp hmem with ⟨v, hv⟩
    exact (mem_iff_exists_getElem? (candleTs ph.candles) c.t).mpr
      ⟨v, (hok.2 c.t v).mp hv⟩
  have hmemIff := insert_index_mem_iff (candleTs ph.candles) ph.candle_index
    c.t (ph.candles.findIdx (fun cd => cd.t < c.t)) (by omega) hnotmem hok.2
  have hwfIdx := insert_index_wf (candleTs ph.candles) ph.candle_index
    c.t (ph.candles.findIdx (fun cd => cd.t < c.t)) hnotmem hok.1 hok.2
  have htrim := trimCandles_spec
    (ph.candles.insertIdx (ph.candles.findIdx (fun cd => cd.t < c.t)) c)
    (ph.candle_index.map (fun kv =>
      (kv.1, if ph.candles.findIdx (fun cd => cd.t < c.t) ≤ kv.2 then
        kv.2 + 1 else kv.2)) ++
      [(c.t, ph.candles.findIdx (fun cd => cd.t < c.t))])
    hndIns hwfIdx
    (by
      intro t i
      rw [htsIns]
      exact hmemIff t i)
  have hcs : (ph.update_or_append_candle c).candles =
      (trimCandles
        (ph.candles.insertIdx (ph.candles.findIdx (fun cd => cd.t < c.t)) c)
        (ph.candle_index.map (fun kv =>
          (kv.1, if ph.candles.findIdx (fun cd => cd.t < c.t) ≤ kv.2 then
            kv.2 + 1 else kv.2)) ++
          [(c.t, ph.candles.findIdx (fun cd => cd.t < c.t))])).1 := by
    simp only [PriceHistory.update_or_append_candle, hget]
    rw [hsetapp]
  have hidx : (ph.update_or_append_candle c).candle_index =
      (trimCandles
        (ph.candles.insertIdx (ph.candles.findIdx (fun cd => cd.t < c.t)) c)
        (ph.candle_index.map (fun kv =>
          (kv.1, if ph.candles.findIdx (fun cd => cd.t < c.t) ≤ kv.2 then
            kv.2 + 1 else kv.2)) ++
          [(c.t, ph.candles.findIdx (fun cd => cd.t < c.t))])).2 := by
    simp only [PriceHistory.update_or_append_candle, hget]
    rw [hsetapp]
  refine ⟨?_, ?_, ⟨?_, ?_⟩, ?_⟩
  · rw [hcs, htrim.1]
  · show List.Sorted _ (candleTs (ph.update_or_append_candle c).candles)
    rw [hcs, htrim.1]
    have : candleTs ((ph.candles.insertIdx
        (ph.candles.findIdx (fun cd => cd.t < c.t)) c).take 1000) =
        (candleTs (ph.candles.insertIdx
          (ph.candles.findIdx (fun cd => cd.t < c.t)) c)).take 1000 :=
      List.map_take ..
    rw [this]
    exact List.Pairwise.sublist (List.take_sublist ..) hsIns
  · rw [hidx]
    exact htrim.2.1
  · intro t i
    rw [hidx, hcs, htrim.1]
    exact htrim.2.2 t i
  · rw [hcs, htrim.1, List.length_take]
    omega

theorem snapshotFold_go :
    ∀ (rest done : List Candle) (idx : PyDict Int Nat),
      (candleTs (done ++ rest)).Nodup → dictWF idx →
      (∀ t i, (t, i) ∈ idx ↔ (candleTs done)[i]? = some t) →
      (rest.foldl
        (fun acc candle =>
          (acc.1 ++ [candle], dictSet acc.2 candle.t acc.1.length))
        (done, idx)).1 = done ++ rest ∧
      dictWF (rest.foldl
        (fun acc candle =>
          (acc.1 ++ [candle], dictSet acc.2 candle.t acc.1.length))
        (done, idx)).2 ∧
      (∀ t i, (t, i) ∈ (rest.foldl
        (fun acc candle =>
          (acc.1 ++ [candle], dictSet acc.2 candle.t acc.1.length))
        (done, idx)).2 ↔ (candleTs (done ++ rest))[i]? = some t) := by
  intro rest
  induction rest with
  | nil =>
    intro done idx hnd hWF hok
    refine ⟨by simp, by simpa using hWF, ?_⟩
    intro t i
    simpa using hok t i
  | cons c rest ih =>
    intro done idx hnd hWF hok
    have htsapp : candleTs (done ++ c :: rest) =
        candleTs done ++ c.t :: candleTs rest := by
      simp [candleTs]
    have hct : c.t ∉ candleTs done := by
      intro hmem
      rw [htsapp] at hnd
      have := (List.disjoint_of_nodup_append hnd) hmem
      exact this (List.mem_cons_self _ _)
    have hctk : c.t ∉ dictKeys idx := by
      intro hmem
      rcases (mem_dictKeys idx c.t).mp hmem with ⟨v, hv⟩
      exact hct ((mem_iff_exists_getElem? (candleTs done) c.t).mpr
        ⟨v, (hok c.t v).mp hv⟩)
    have hset : dictSet idx c.t done.length = idx ++ [(c.t, done.length)] :=
      dictSet_eq_append _ hctk
    have htsdone : candleTs (done ++ [c]) = candleTs done ++ [c.t] := by
      simp [candleTs]
    have hok2 : ∀ t i, (t, i) ∈ idx ++ [(c.t, done.length)] ↔
        (candleTs (done ++ [c]))[i]? = some t := by
      intro t i
      rw [htsdone, getElem?_concat_iff, List.mem_append, List.mem_singleton]
      constructor
      · rintro (h | h)
        · exact Or.inl ((hok t i).mp h)
        · cases h
          right
          exact ⟨(show (candleTs done).length = done.length from
            List.length_map ..).symm, rfl⟩
      · rintro (h | ⟨hlen, ht⟩)
        · exact Or.inl ((hok t i).mpr h)
        · right
          rw [ht, hlen, show (candleTs done).length = done.length from
            List.length_map ..]

    have hWF2 : dictWF (idx ++ [(c.t, done.length)]) := by
      unfold dictWF
      rw [dictKeys, List.map_append]
      rw [show List.map Prod.fst idx = dictKeys idx from rfl]
      rw [List.nodup_append]
      exact ⟨hWF, List.nodup_singleton _, by simpa using fun hc => hctk hc⟩
    have hnd2 : (candleTs ((done ++ [c]) ++ rest)).Nodup := by
      rw [show (done ++ [c]) ++ rest = done ++ c :: rest from by simp]
      exact hnd
    have hres := ih (done ++ [c]) (idx ++ [(c.t, done.length)]) hnd2 hWF2 hok2
    simp only [List.foldl_cons, hset]
    rw [show (done ++ [c]) ++ rest = done ++ c :: rest from by simp] at hres
    exact hres

theorem apply_snapshot_PHInv (ph : PriceHistory) (d : PriceHistoryData)
    (hs : sortedDescT d.prices) (hlen : d.prices.length ≤ 1000) :
    PHInv (ph.apply_snapshot d) ∧ (ph.apply_snapshot d).candles = d.prices := by
  have hnd : (candleTs ([] ++ d.prices)).Nodup := by
    simp only [List.nil_append]
    exact List.Pairwise.imp (fun h => (ne_of_gt h)) hs
  have hok0 : ∀ t i, (t, i) ∈ ([] : PyDict Int Nat) ↔
      (candleTs ([] : List Candle))[i]? = some t := by
    intro t i
    simp [candleTs]
  have hgo := snapshotFold_go d.prices [] [] hnd (by
    unfold dictWF dictKeys
    simp) hok0
  simp only [List.nil_append] at hgo
  have hcs : (ph.apply_snapshot d).candles = (snapshotFold d.prices).1 := rfl
  have hidx : (ph.apply_snapshot d).candle_index =
      (snapshotFold d.prices).2 := rfl
  have hfold : snapshotFold d.prices = d.prices.foldl
      (fun acc candle =>
        (acc.1 ++ [candle], dictSet acc.2 candle.t acc.1.length))
      ([], []) := rfl
  refine ⟨⟨?_, ?_, ?_, ?_⟩, ?_⟩
  · show List.Sorted _ (candleTs (ph.apply_snapshot d).candles)
    rw [hcs, hfold, hgo.1]
    exact hs
  · rw [hcs, hfold, hgo.1]
    exact hlen
  · rw [hidx, hfold]
    exact hgo.2.1
  · intro t i
    rw [hidx, hcs, hfold, hgo.1]
    exact hgo.2.2 t i
  · rw [hcs, hfold, hgo.1]

theorem update_or_append_PHInv (ph : PriceHistory) (c : Candle)
    (hinv : PHInv ph) : PHInv (ph.update_or_append_candle c) := by
  obtain ⟨hs, hlen, hok⟩ := hinv
  rcases hget : dictGet? ph.candle_index c.t with _ | i
  · obtain ⟨_, hsorted, hidxok, hle⟩ :=
      update_or_append_unknown ph c hget hs hok
    exact ⟨hsorted, hle, hidxok⟩
  · obtain ⟨hcs, hidx, hts, hlencs⟩ := update_or_append_known ph c i hget hok
    refine ⟨?_, ?_, ?_, ?_⟩
    · show List.Sorted _ (candleTs (ph.update_or_append_candle c).candles)
      rw [hts]
      exact hs
    · rw [hlencs]
      exact hlen
    · rw [hidx]
      exact hok.1
    · intro t i2
      rw [hidx, hts]
      exact hok.2 t i2

theorem apply_event_PHInv (ph : PriceHistory) (d : PriceHistoryData)
    (hinv : PHInv ph) (hwf : wellFormedSnapshot d) :
    PHInv (ph.apply_event d) := by
  unfold PriceHistory.apply_event
  by_cases hsnap : d.event_type = "snapshot"
  · rw [if_pos hsnap]
    obtain ⟨hs, hlen⟩ := hwf hsnap
    exact (apply_snapshot_PHInv ph d hs hlen).1.imp id id
  · rw [if_neg hsnap]
    by_cases hupd : d.event_type = "update"
    · rw [if_pos hupd]
      unfold PriceHistory.apply_update
      rcases d.to_candle with _ | c
      · exact hinv
      · exact update_or_append_PHInv ph c hinv
    · rw [if_neg hupd]
      by_cases hhb : d.event_type = "heartbeat"
      · rw [if_pos hhb]
        exact hinv
      · rw [if_neg hhb]
        exact hinv

/-- Counterexample to C2 as stated: `apply_snapshot` stores the server's
candle list as-is (price.py lines 47–51), so a snapshot whose candles are
not newest-first leaves the replica unsorted. -/
theorem c2_counterexample :
    candleTs ((mkPriceHistory "ob" "1m").apply_event
      { event_type := "snapshot",
        prices := [{ t := 90 }, { t := 100 }] }).candles = [90, 100] ∧
    ¬ sortedDescT ((mkPriceHistory "ob" "1m").apply_event
      { event_type := "snapshot",
        prices := [{ t := 90 }, { t := 100 }] }).candles := by
  constructor
  · decide
  · unfold sortedDescT
    decide

theorem PHInv_foldl (events : List PriceHistoryData) :
    ∀ ph : PriceHistory, PHInv ph →
      (∀ d ∈ events, wellFormedSnapshot d) →
      PHInv (events.foldl PriceHistory.apply_event ph) := by
  induction events with
  | nil => intro ph hinv _; exact hinv
  | cons d rest ih =>
    intro ph hinv hwf
    exact ih (ph.apply_event d)
      (apply_event_PHInv ph d hinv (hwf d (List.mem_cons_self d rest)))
      (fun d2 h2 => hwf d2 (List.mem_cons_of_mem d h2))

/-- C2 amended: provided every applied snapshot is well formed (candles
strictly descending by timestamp, at most 1000 — price.py line 47 documents
that snapshots come newest-first from the server), any sequence of
snapshot/update/heartbeat events leaves the replica with at most 1000
candles, sorted strictly descending by timestamp. -/
theorem c2_amended_price_history_invariant (ob res : String) (io : Bool)
    (events : List PriceHistoryData)
    (hwf : ∀ d ∈ events, wellFormedSnapshot d) :
    (events.foldl PriceHistory.apply_event
      (mkPriceHistory ob res io)).candles.length ≤ 1000 ∧
    sortedDescT (events.foldl PriceHistory.apply_event
      (mkPriceHistory ob res io)).candles := by
  have hinv0 : PHInv (mkPriceHistory ob res io) := by
    refine ⟨?_, ?_, ?_, ?_⟩
    · show List.Sorted _ (candleTs [])
      simp [candleTs]
    · simp [mkPriceHistory]
    · unfold dictWF dictKeys
      simp [mkPriceHistory]
    · intro t i
      simp [mkPriceHistory, candleTs]
  have hinv := PHInv_foldl events (mkPriceHistory ob res io) hinv0 hwf
  exact ⟨hinv.2.1, hinv.1⟩

/-- Witness for C2 amended: the spec's scenario — snapshot `[100, 90]`, then
an update for the unknown timestamp 110, then a replacing update for the
known timestamp 100 — ends with 3 candles sorted `[110, 100, 90]`. -/
theorem c2_amended_price_history_invariant_witness :
    (∀ d ∈ demoEvents, wellFormedSnapshot d) ∧
    (demoEvents.foldl PriceHistory.apply_event
      (mkPriceHistory "ob" "1m")).candles.length ≤ 1000 ∧
    sortedDescT (demoEvents.foldl PriceHistory.apply_event
      (mkPriceHistory "ob" "1m")).candles ∧
    candleTs (demoEvents.foldl PriceHistory.apply_event
      (mkPriceHistory "ob" "1m")).candles = [110, 100, 90] := by
  have hwf : ∀ d ∈ demoEvents, wellFormedSnapshot d := by
    intro d hd
    unfold wellFormedSnapshot
    simp only [demoEvents, List.mem_cons, List.not_mem_nil, or_false] at hd
    rcases hd with h | h | h
    · subst h
      intro _
      exact ⟨by unfold sortedDescT; decide, by decide⟩
    · subst h
      intro hsnap
      simp [demoUpdate110] at hsnap
    · subst h
      intro hsnap
      simp [demoUpdate100] at hsnap
  have hmain := c2_amended_price_history_invariant "ob" "1m" false
    demoEvents hwf
  exact ⟨hwf, hmain.1, hmain.2, by unfold candleTs; decide⟩

/-- C9.  On a replica whose candles are sorted strictly descending with a
consistent timestamp→index map: an update for a timestamp already in the
index replaces that candle in place — same order of timestamps, same length,
index untouched; an update for an unknown timestamp inserts the candle at
`findIdx (·.t < t)` (the position that keeps the list descending), and the
result is the inserted list trimmed to its first 1000 entries, still sorted,
with a consistent index (so shifted entries point at the moved candles and
evicted timestamps are gone from the index). -/
theorem c9_update_or_append_spec (ph : PriceHistory) (c : Candle)
    (hs : sortedDescT ph.candles)
    (hok : idxOk ph.candles ph.candle_index) :
    (∀ i, dictGet? ph.candle_index c.t = some i →
      (ph.update_or_append_candle c).candles = ph.candles.set i c ∧
      candleTs (ph.update_or_append_candle c).candles =
        candleTs ph.candles ∧
      (ph.update_or_append_candle c).candles.length = ph.candles.length ∧
      (ph.update_or_append_candle c).candle_index = ph.candle_index) ∧
    (dictGet? ph.candle_index c.t = none →
      (ph.update_or_append_candle c).candles =
        (ph.candles.insertIdx
          (ph.candles.findIdx (fun cd => cd.t < c.t)) c).take 1000 ∧
      sortedDescT (ph.update_or_append_candle c).candles ∧
      idxOk (ph.update_or_append_candle c).candles
        (ph.update_or_append_candle c).candle_index ∧
      (ph.update_or_append_candle c).candles.length ≤ 1000) := by
  constructor
  · intro i hget
    obtain ⟨hcs, hidx, hts, hlen⟩ := update_or_append_known ph c i hget hok
    exact ⟨hcs, hts, hlen, hidx⟩
  · intro hget
    exact update_or_append_unknown ph c hget hs hok

/-- Witness for C9 on the spec's scenario: after the snapshot `[100, 90]`,
inserting the unknown `t=110` yields `[110, 100, 90]`, and then replacing
the known `t=100` keeps order and length. -/
theorem c9_update_or_append_spec_witness :
    candleTs ((demoHistory.update_or_append_candle
      { t := 110 }).candles) = [110, 100, 90] ∧
    candleTs (((demoHistory.update_or_append_candle
      { t := 110 }).update_or_append_candle
        { t := 100, c := some "5" }).candles) = [110, 100, 90] ∧
    ((demoHistory.update_or_append_candle
      { t := 110 }).update_or_append_candle
        { t := 100, c := some "5" }).candles.length = 3 := by
  have hA := apply_snapshot_PHInv (mkPriceHistory "ob" "1m")
    demoSnapshotEvent (by unfold sortedDescT; decide) (by decide)
  have hAinv : PHInv demoHistory := hA.1
  have h9B := (c9_update_or_append_spec demoHistory { t := 110 }
    hAinv.1 hAinv.2.2).2 (by decide)
  have hBc : candleTs ((demoHistory.update_or_append_candle
      { t := 110 }).candles) = [110, 100, 90] := by
    rw [h9B.1]
    decide
  have hBinv : PHInv (demoHistory.update_or_append_candle { t := 110 }) :=
    update_or_append_PHInv demoHistory { t := 110 } hAinv
  have h9C := (c9_update_or_append_spec
    (demoHistory.update_or_append_candle { t := 110 })
    { t := 100, c := some "5" } hBinv.1 hBinv.2.2).1 1 (by decide)
  refine ⟨hBc, ?_, ?_⟩
  · rw [h9C.2.1, hBc]
  · rw [h9C.2.2.1]
    decide

/-! ## C7, C8: user replica -/

theorem apply_balance_from_order_orders (st : UserState)
    (data : UserEventData) (b : Balance) :
    (st.apply_balance_from_order data b).orders = st.orders := by
  unfold UserState.apply_balance_from_order
  split
  · rfl
  · split
    · rfl
    · rfl

theorem firstMarketKey?_mem_keys {bs : PyDict String BalanceEntry}
    {market k : String} (h : firstMarketKey? bs market = some k) :
    k ∈ dictKeys bs := by
  unfold firstMarketKey? at h
  rcases hf : bs.find? (fun kv => pyStartsWith kv.1 market) with _ | kv
  · rw [hf] at h
    cases h
  · rw [hf] at h
    have hm := List.mem_of_find?_eq_some hf
    have : kv.1 = k := Option.some.injEq .. ▸ h
    rw [← this]
    exact List.mem_map_of_mem Prod.fst hm

theorem dictGet?_updateFirstMarketMatch
    (bs : PyDict String BalanceEntry) (market : String)
    (outcomes : List OutcomeBalance) (q : String) (hWF : dictWF bs) :
    dictGet? (updateFirstMarketMatch bs market outcomes) q =
      if firstMarketKey? bs market = some q then
        (dictGet? bs q).map (fun en => { en with outcomes := outcomes })
      else dictGet? bs q := by
  induction bs with
  | nil =>
    simp [updateFirstMarketMatch, firstMarketKey?, dictGet?]
  | cons kv rest ih =>
    obtain ⟨k, entry⟩ := kv
    obtain ⟨hk, hrest⟩ := dictWF_cons hWF
    by_cases hsw : pyStartsWith k market
    · have hfirst : firstMarketKey? ((k, entry) :: rest) market = some k := by
        unfold firstMarketKey?
        rw [List.find?_cons_of_pos _ (by simpa using hsw)]
        rfl
      by_cases hq : k = q
      · subst hq
        simp [updateFirstMarketMatch, hsw, dictGet?, hfirst]
      · have hqs : ¬ (some k = some q) := by
          simp [hq]
        simp [updateFirstMarketMatch, hsw, dictGet?, hq, hfirst, hqs]
    · have hfirst : firstMarketKey? ((k, entry) :: rest) market =
          firstMarketKey? rest market := by
        unfold firstMarketKey?
        rw [List.find?_cons_of_neg _ (by simpa using hsw)]
      by_cases hq : k = q
      · subst hq
        have hnone : ¬ (firstMarketKey? rest market = some k) := by
          intro hcon
          exact hk (firstMarketKey?_mem_keys hcon)
        simp [updateFirstMarketMatch, hsw, dictGet?, hfirst, hnone]
      · simp [updateFirstMarketMatch, hsw, dictGet?, hq, hfirst,
          ih hrest]

/-- Counterexample to C7 as stated: a standalone `balance_update` with a
market but no deposit-asset leaves the stored balances untouched —
`apply_balance_update` (user.py 81–92) has no best-effort fallback; only the
inline-balance path of order updates does. -/
theorem c7_counterexample :
    (demoUserState.apply_event demoBalanceUpdateNoMint).balances =
      demoUserState.balances ∧
    demoBalanceEntryOld.outcomes ≠ demoOutcomes := by
  exact ⟨by decide, by decide⟩

/-- C7 amended: `apply_balance_update` upserts under the key
`market:deposit_mint` only when market, deposit-asset and balance payload
are all present (and truthy), and otherwise changes no balance at all;
the best-effort first-entry-under-the-market match is performed only by
`_apply_balance_from_order`, the path used for inline balances on order
updates, which rewrites the outcomes of the first stored entry whose key
starts with the market and leaves every other entry unchanged. -/
theorem c7_amended_balance_update_paths (st : UserState)
    (data : UserEventData) (b : Balance) (hWF : dictWF st.balances) :
    (data.balance = some b →
      (pyTruthy data.market_pubkey && pyTruthy data.deposit_mint) = true →
      (st.apply_balance_update data).balances =
        dictSet st.balances
          (balanceKey (data.market_pubkey.getD "") (data.deposit_mint.getD ""))
          { market_pubkey := data.market_pubkey.getD ""
            deposit_mint := data.deposit_mint.getD ""
            outcomes := b.outcomes }) ∧
    ((data.balance = none ∨
        (pyTruthy data.market_pubkey && pyTruthy data.deposit_mint) = false) →
      (st.apply_balance_update data).balances = st.balances) ∧
    (pyTruthy data.market_pubkey = true → pyTruthy data.deposit_mint = false →
      ∀ q, dictGet? (st.apply_balance_from_order data b).balances q =
        if firstMarketKey? st.balances (data.market_pubkey.getD "") = some q
        then (dictGet? st.balances q).map
          (fun en => { en with outcomes := b.outcomes })
        else dictGet? st.balances q) := by
  refine ⟨?_, ?_, ?_⟩
  · intro hb htr
    unfold UserState.apply_balance_update
    rw [hb]
    simp only [htr, if_true]
  · intro hcase
    unfold UserState.apply_balance_update
    rcases hb : data.balance with _ | b2
    · rfl
    · rcases hcase with hnone | hfalse
      · rw [hb] at hnone
        cases hnone
      · simp only [hfalse]
        simp
  · intro hm hnm
    intro q
    unfold UserState.apply_balance_from_order
    rw [hm, hnm]
    simp only [Bool.true_and, Bool.and_false, if_false, if_true]
    exact dictGet?_updateFirstMarketMatch st.balances
      (data.market_pubkey.getD "") b.outcomes q hWF

/-- Witness for C7 amended: on the concrete replica with one entry "M:X",
a market-only standalone balance_update is a no-op, while the inline-balance
path rewrites that first entry's outcomes. -/
theorem c7_amended_balance_update_paths_witness :
    (demoUserState.apply_balance_update demoBalanceUpdateNoMint).balances =
      demoUserState.balances ∧
    dictGet? ((demoUserState.apply_balance_from_order demoBalanceUpdateNoMint
      { outcomes := demoOutcomes }).balances) "M:X" =
      some { market_pubkey := "M", deposit_mint := "X",
             outcomes := demoOutcomes } := by
  have h := c7_amended_balance_update_paths demoUserState
    demoBalanceUpdateNoMint { outcomes := demoOutcomes }
    (by unfold dictWF; decide)
  refine ⟨?_, ?_⟩
  · exact h.2.1 (Or.inr (by decide))
  · rw [h.2.2 (by decide) (by decide) "M:X"]
    decide

theorem apply_order_update_orders (st : UserState) (data : UserEventData)
    (upd : OrderUpdate) (horder : data.order = some upd) :
    (st.apply_order_update data).orders =
      if is_zero upd.remaining then dictPop st.orders upd.order_hash
      else
        match dictGet? st.orders upd.order_hash with
        | some existing =>
          dictSet st.orders upd.order_hash
            { existing with remaining := upd.remaining, filled := upd.filled }
        | none =>
          if pyTruthy data.market_pubkey && pyTruthy data.orderbook_id then
            dictSet st.orders upd.order_hash (synthesizedOrder data upd)
          else st.orders := by
  unfold UserState.apply_order_update
  rw [horder]
  by_cases hz : is_zero upd.remaining
  · simp only [hz, if_true]
    rcases hb : upd.balance with _ | b
    · rfl
    · exact apply_balance_from_order_orders _ data b
  · simp only [hz, if_false, Bool.false_eq_true]
    rcases hget : dictGet? st.orders upd.order_hash with _ | existing
    · by_cases htr : pyTruthy data.market_pubkey && pyTruthy data.orderbook_id
      · simp only [htr, if_true]
        rcases hb : upd.balance with _ | b
        · rfl
        · exact apply_balance_from_order_orders _ data b
      · simp only [htr]
        simp only [Bool.false_eq_true, if_false]
        rcases hb : upd.balance with _ | b
        · rfl
        · exact apply_balance_from_order_orders _ data b
    · rcases hb : upd.balance with _ | b
      · rfl
      · exact apply_balance_from_order_orders _ data b

/-- C8.  For an `order_update` whose remaining parses to the exact decimal
`m·10^e`: remaining equal to exact zero (`m = 0`) deletes the order with that
hash; a known hash with non-zero remaining has its remaining/filled mutated
in place (all other fields kept); an unknown hash with non-zero remaining
synthesizes a new order exactly when both a (truthy) market and orderbook id
accompany the update, and otherwise the orders map is unchanged. -/
theorem c8_apply_order_update_spec (st : UserState) (data : UserEventData)
    (upd : OrderUpdate) (m e : Int)
    (horder : data.order = some upd)
    (hparse : parseDec upd.remaining = some (m, e)) :
    (m = 0 →
      (st.apply_order_update data).orders =
        dictPop st.orders upd.order_hash) ∧
    (m ≠ 0 →
      (∀ ex, dictGet? st.orders upd.order_hash = some ex →
        (st.apply_order_update data).orders =
          dictSet st.orders upd.order_hash
            { ex with remaining := upd.remaining, filled := upd.filled }) ∧
      (dictGet? st.orders upd.order_hash = none →
        ((pyTruthy data.market_pubkey && pyTruthy data.orderbook_id) = true →
          (st.apply_order_update data).orders =
            dictSet st.orders upd.order_hash (synthesizedOrder data upd)) ∧
        ((pyTruthy data.market_pubkey && pyTruthy data.orderbook_id) = false →
          (st.apply_order_update data).orders = st.orders))) := by
  have hz : is_zero upd.remaining = decide (m = 0) := by
    unfold is_zero
    rw [hparse]
  have horders := apply_order_update_orders st data upd horder
  constructor
  · intro hm
    rw [horders, hz, hm]
    simp
  · intro hm
    have hzf : is_zero upd.remaining = false := by
      rw [hz]
      exact decide_eq_false hm
    refine ⟨?_, ?_⟩
    · intro ex hget
      rw [horders, hzf, hget]
      simp
    · intro hget
      refine ⟨?_, ?_⟩
      · intro htr
        rw [horders, hzf, hget]
        simp [htr]
      · intro htr
        rw [horders, hzf, hget]
        simp [htr]

/-- Witness for C8 at concrete inputs: remaining `"0"` deletes the stored
order; remaining `"2"` for an unknown hash with market and orderbook id
present creates the synthesized order. -/
theorem c8_apply_order_update_spec_witness :
    (demoUserWithOrder.apply_order_update (demoOrderEventBare "0" "2")).orders
      = [] ∧
    ((mkUserState "u").apply_order_update (demoOrderEventFull "2" "0")).orders
      = [("h1",
          synthesizedOrder (demoOrderEventFull "2" "0")
            (demoOrderUpd "2" "0"))] := by
  constructor
  · rw [(c8_apply_order_update_spec demoUserWithOrder
      (demoOrderEventBare "0" "2") (demoOrderUpd "0" "2") 0 0 rfl
      (by decide)).1 rfl]
    decide
  · rw [(c8_apply_order_update_spec (mkUserState "u")
      (demoOrderEventFull "2" "0") (demoOrderUpd "2" "0") 2 0 rfl
      (by decide)).2 (by decide) |>.2 (by decide) |>.1 (by decide)]
    decide

/-! ## C6: user subscriptions in the registry -/

/-- Counterexample to C6 as stated: `add_user` is plain set insertion
(subscriptions.py 86–88), so after subscribing "A" and then "B" both users
are active and the reconnect snapshot carries two user subscriptions — the
second subscribe does not replace the first. -/
theorem c6_counterexample :
    ((mkSubscriptionManager.add_user "A").add_user "B").is_subscribed_user "A"
      = true ∧
    ((mkSubscriptionManager.add_user "A").add_user "B").is_subscribed_user "B"
      = true ∧
    ("A" : String) ≠ "B" ∧
    (((mkSubscriptionManager.add_user "A").add_user
        "B").get_all_subscriptions.filter
      (fun s => s.type_ = "user")).length = 2 := by
  refine ⟨by decide, by decide, by decide, by decide⟩

theorem get_all_subscriptions_user_part (mgr : SubscriptionManager) :
    mgr.get_all_subscriptions.filter (fun s => s.type_ = "user") =
      mgr.users.map (fun u => { type_ := "user", user := some u }) := by
  unfold SubscriptionManager.get_all_subscriptions
  rw [List.filter_append, List.filter_append, List.filter_append,
    List.filter_append]
  have h1 : (if mgr.book_updates.isEmpty then ([] : List Subscription)
      else [{ type_ := "book_update",
              orderbook_ids := some mgr.book_updates }]).filter
      (fun s => s.type_ = "user") = [] := by
    split <;> simp
  have h2 : (if mgr.trades.isEmpty then ([] : List Subscription)
      else [{ type_ := "trades",
              orderbook_ids := some mgr.trades }]).filter
      (fun s => s.type_ = "user") = [] := by
    split <;> simp
  have h3 : (mgr.users.map
      (fun u => ({ type_ := "user", user := some u } : Subscription))).filter
      (fun s => s.type_ = "user") =
      mgr.users.map (fun u => { type_ := "user", user := some u }) := by
    rw [List.filter_map]
    simp [Function.comp_def]
  have h4 : (mgr.price_history.map
      (fun kv => ({ type_ := "price_history",
                    orderbook_id := some kv.2.1,
                    resolution := some kv.2.2.1,
                    include_ohlcv := some kv.2.2.2 } : Subscription))).filter
      (fun s => s.type_ = "user") = [] := by
    rw [List.filter_map]
    simp [Function.comp_def]
  have h5 : (mgr.markets.map
      (fun mk => ({ type_ := "market",
                    market_pubkey := some mk } : Subscription))).filter
      (fun s => s.type_ = "user") = [] := by
    rw [List.filter_map]
    simp [Function.comp_def]
  rw [h1, h2, h3, h4, h5]
  simp

/-- C6 amended: the registry's user topic has idempotent set semantics, not
last-write-wins.  After `add_user u`, `u` is subscribed, every previously
subscribed user remains subscribed, and the reconnect snapshot contains one
user subscription per subscribed user (so, after subscribing a second
distinct user, two user entries are replayed; only the dispatcher's
`subscribed_user` pointer — handlers.py 193–197 — is last-write-wins). -/
theorem c6_amended_add_user_set_semantics (mgr : SubscriptionManager)
    (u : String) :
    (mgr.add_user u).is_subscribed_user u = true ∧
    (∀ v, mgr.is_subscribed_user v = true →
      (mgr.add_user u).is_subscribed_user v = true) ∧
    ((mgr.add_user u).get_all_subscriptions.filter
      (fun s => s.type_ = "user")).length = (mgr.add_user u).users.length ∧
    (mgr.is_subscribed_user u = false →
      (mgr.add_user u).users.length = mgr.users.length + 1) := by
  refine ⟨?_, ?_, ?_, ?_⟩
  · unfold SubscriptionManager.add_user SubscriptionManager.is_subscribed_user
      setAdd setMem
    by_cases h : u ∈ mgr.users
    · simp [h]
    · simp [h]
  · intro v hv
    unfold SubscriptionManager.add_user SubscriptionManager.is_subscribed_user
      setAdd setMem at *
    by_cases h : u ∈ mgr.users
    · simpa [h] using hv
    · simp only [if_neg h]
      simp only [decide_eq_true_eq] at hv
      simp [hv]
  · rw [get_all_subscriptions_user_part]
    exact List.length_map ..
  · intro hno
    unfold SubscriptionManager.add_user setAdd
    unfold SubscriptionManager.is_subscribed_user setMem at hno
    have h : u ∉ mgr.users := by
      simpa using hno
    simp [h]

/-- Witness for C6 amended at the concrete registry with users "A", "B". -/
theorem c6_amended_add_user_set_semantics_witness :
    ((mkSubscriptionManager.add_user "A").add_user "B").is_subscribed_user "B"
      = true ∧
    (mkSubscriptionManager.add_user "A").is_subscribed_user "A" = true ∧
    ((mkSubscriptionManager.add_user "A").add_user "B").is_subscribed_user "A"
      = true ∧
    (((mkSubscriptionManager.add_user "A").add_user
        "B").get_all_subscriptions.filter
      (fun s => s.type_ = "user")).length =
      ((mkSubscriptionManager.add_user "A").add_user "B").users.length ∧
    ((mkSubscriptionManager.add_user "A").add_user "B").users.length =
      (mkSubscriptionManager.add_user "A").users.length + 1 := by
  have h := c6_amended_add_user_set_semantics
    (mkSubscriptionManager.add_user "A") "B"
  refine ⟨h.1, by decide, ?_, h.2.2.1, h.2.2.2 (by decide)⟩
  exact h.2.1 "A" (by decide)

/-! ## C4: dispatch boundary -/

/-- C4 evaluated at the failing input: the frame text `"123"` is valid JSON,
so `json.loads` succeeds with the integer 123; `RawWsMessage.from_dict(123)`
then calls `.get` on a non-dict and raises `AttributeError`, and the leading
`try` in `handle_message` (handlers.py 35–40) catches only
`json.JSONDecodeError`, so the exception escapes `handle_message` instead of
becoming a `MessageParseError` event. -/
theorem c4_handle_message_nondict_raises :
    mkMessageHandler.handle_message (.value (.int 123)) =
      .error (.attributeError "get") ∧
    mkMessageHandler.handle_message (.malformed "syntax error") =
      .ok (mkMessageHandler,
        [mkErrorEvent (.messageParseError "syntax error")]) := by
  exact ⟨rfl, rfl⟩

/-! ## C5, C10: receive loop and reconnect counter -/

theorem receive_step_exited (cfg : WsClientConfig) (st : LoopState)
    (ev : LoopEvent) (h : st.exited = true) : receive_step cfg st ev = st := by
  unfold receive_step
  rw [if_pos h]

theorem receive_run_exited (cfg : WsClientConfig) (evs : List LoopEvent) :
    ∀ st : LoopState, st.exited = true → receive_run cfg st evs = st := by
  induction evs with
  | nil => intro st _; rfl
  | cons ev rest ih =>
    intro st h
    show receive_run cfg (receive_step cfg st ev) rest = st
    rw [receive_step_exited cfg st ev h]
    exact ih st h

theorem receive_step_fail_low (cfg : WsClientConfig) (st : LoopState)
    (ev : LoopEvent)
    (hev : isFailedRecoveryTrigger ev = true)
    (hrun : st.running = true) (hws : st.has_ws = true)
    (hex : st.exited = false) (hen : cfg.reconnect_enabled = true)
    (hlow : st.attempts < cfg.max_reconnect_attempts) :
    receive_step cfg st ev =
      { st with connected := false, attempts := st.attempts + 1 } := by
  rcases ev with _ | ⟨code, dial⟩ | dial | _ | _
  · cases hev
  · obtain ⟨hdial, hcode⟩ : dial = false ∧ ¬ code = 1008 := by
      simpa [isFailedRecoveryTrigger] using hev
    subst hdial
    unfold receive_step attempt_reconnect bumpAttempts loopWhileCheck
    simp [hex, hrun, hws, hen, hcode, Nat.not_le.mpr hlow]
  · have hdial : dial = false := by
      simpa [isFailedRecoveryTrigger] using hev
    subst hdial
    unfold receive_step attempt_reconnect bumpAttempts loopWhileCheck
    simp [hex, hrun, hws, hen, Nat.not_le.mpr hlow]
  · cases hev
  · cases hev

theorem receive_step_fail_high (cfg : WsClientConfig) (st : LoopState)
    (ev : LoopEvent)
    (hev : isRecoveryTrigger ev = true)
    (hrun : st.running = true) (hws : st.has_ws = true)
    (hex : st.exited = false) (hen : cfg.reconnect_enabled = true)
    (hhigh : cfg.max_reconnect_attempts ≤ st.attempts) :
    receive_step cfg st ev =
      { st with connected := false, running := false,
                attempts := st.attempts + 1, exited := true } := by
  rcases ev with _ | ⟨code, dial⟩ | dial | _ | _
  · cases hev
  · have hcode : ¬ code = 1008 := by
      simpa [isRecoveryTrigger] using hev
    unfold receive_step attempt_reconnect bumpAttempts loopWhileCheck
    simp [hex, hrun, hws, hen, hcode, hhigh]
  · unfold receive_step attempt_reconnect bumpAttempts loopWhileCheck
    simp [hex, hrun, hws, hen, hhigh]
  · cases hev
  · cases hev

theorem isRecovery_of_isFailed (ev : LoopEvent)
    (h : isFailedRecoveryTrigger ev = true) : isRecoveryTrigger ev = true := by
  rcases ev with _ | ⟨code, dial⟩ | dial | _ | _ <;>
    simp_all [isFailedRecoveryTrigger, isRecoveryTrigger]

theorem receive_run_all_fail (cfg : WsClientConfig)
    (hen : cfg.reconnect_enabled = true) :
    ∀ (evs : List LoopEvent) (st : LoopState),
      (∀ ev ∈ evs, isFailedRecoveryTrigger ev = true) →
      st.running = true → st.has_ws = true → st.exited = false →
      1 ≤ evs.length →
      cfg.max_reconnect_attempts + 1 ≤ st.attempts + evs.length →
      (receive_run cfg st evs).running = false ∧
      (receive_run cfg st evs).exited = true ∧
      (receive_run cfg st evs).connected = false := by
  intro evs
  induction evs with
  | nil =>
    intro st _ _ _ _ hlen _
    simp at hlen
  | cons ev rest ih =>
    intro st hall hrun hws hex _ hcount
    have hfirst : isFailedRecoveryTrigger ev = true :=
      hall ev (List.mem_cons_self ev rest)
    have hrun1 : receive_run cfg st (ev :: rest) =
        receive_run cfg (receive_step cfg st ev) rest := rfl
    by_cases hhigh : cfg.max_reconnect_attempts ≤ st.attempts
    · have hstep := receive_step_fail_high cfg st ev
        (isRecovery_of_isFailed ev hfirst) hrun hws hex hen hhigh
      rw [hrun1, hstep, receive_run_exited cfg rest _ rfl]
      exact ⟨rfl, rfl, rfl⟩
    · have hlow : st.attempts < cfg.max_reconnect_attempts := by omega
      have hstep := receive_step_fail_low cfg st ev hfirst hrun hws hex hen
        hlow
      rw [hrun1, hstep]
      refine ih _ (fun e he => hall e (List.mem_cons_of_mem ev he))
        (by simp [hrun]) (by simp [hws]) (by simp [hex]) ?_ ?_
      · have : cfg.max_reconnect_attempts + 1 ≤
            st.attempts + (rest.length + 1) := by
          simpa [List.length_cons] using hcount
        omega
      · have : cfg.max_reconnect_attempts + 1 ≤
            st.attempts + (rest.length + 1) := by
          simpa [List.length_cons] using hcount
        simp only []
        omega

/-- C5.  With reconnection enabled, if every reconnect dial fails, then a
trace of unexpected closes / pong timeouts of length at least
`maxReconnectAttempts + 1` (the loop re-polls the dead socket immediately,
so such triggers keep arriving) drives the loop from a fresh connect into a
terminal state: `running` is cleared, the task has returned (`exited`, and
the step function is total, so it returns rather than raising), the client
is disconnected, and every further event leaves the state unchanged until a
fresh external connect. -/
theorem c5_reconnect_exhaustion_terminal (cfg : WsClientConfig)
    (evs evs2 : List LoopEvent)
    (hen : cfg.reconnect_enabled = true)
    (hall : ∀ ev ∈ evs, isFailedRecoveryTrigger ev = true)
    (hlen : cfg.max_reconnect_attempts + 1 ≤ evs.length) :
    (receive_run cfg initialLoopState evs).running = false ∧
    (receive_run cfg initialLoopState evs).exited = true ∧
    (receive_run cfg initialLoopState evs).connected = false ∧
    receive_run cfg (receive_run cfg initialLoopState evs) evs2 =
      receive_run cfg initialLoopState evs := by
  have h := receive_run_all_fail cfg hen evs initialLoopState hall rfl rfl
    rfl (by omega) (by
      show cfg.max_reconnect_attempts + 1 ≤ 0 + evs.length
      omega)
  exact ⟨h.1, h.2.1, h.2.2, receive_run_exited cfg evs2 _ h.2.1⟩

/-- Witness for C5 with `maxReconnectAttempts = 3`: four failing recovery
triggers (three real dial attempts, then the immediate re-poll that finds
the counter exhausted) leave the loop terminal, and a further event changes
nothing. -/
theorem c5_reconnect_exhaustion_terminal_witness :
    (∀ ev ∈ List.replicate 4 (LoopEvent.connClosed 1006 false),
      isFailedRecoveryTrigger ev = true) ∧
    ({ reconnect_enabled := true,
       max_reconnect_attempts := 3 : WsClientConfig}.max_reconnect_attempts
      + 1 ≤ (List.replicate 4 (LoopEvent.connClosed 1006 false)).length) ∧
    (receive_run { reconnect_enabled := true, max_reconnect_attempts := 3 }
      initialLoopState
      (List.replicate 4 (LoopEvent.connClosed 1006 false))).running =
      false ∧
    (receive_run { reconnect_enabled := true, max_reconnect_attempts := 3 }
      initialLoopState
      (List.replicate 4 (LoopEvent.connClosed 1006 false))).exited = true ∧
    receive_run { reconnect_enabled := true, max_reconnect_attempts := 3 }
      (receive_run { reconnect_enabled := true, max_reconnect_attempts := 3 }
        initialLoopState
        (List.replicate 4 (LoopEvent.connClosed 1006 false)))
      [LoopEvent.message] =
      receive_run { reconnect_enabled := true, max_reconnect_attempts := 3 }
        initialLoopState
        (List.replicate 4 (LoopEvent.connClosed 1006 false)) := by
  have h := c5_reconnect_exhaustion_terminal
    { reconnect_enabled := true, max_reconnect_attempts := 3 }
    (List.replicate 4 (LoopEvent.connClosed 1006 false)) [LoopEvent.message]
    rfl (by decide) (by decide)
  exact ⟨by decide, by decide, h.1, h.2.1, h.2.2.2⟩

theorem receive_step_trigger_attempts (cfg : WsClientConfig) (st : LoopState)
    (ev : LoopEvent)
    (hev : isRecoveryTrigger ev = true)
    (hrun : st.running = true) (hws : st.has_ws = true)
    (hex : st.exited = false) (hen : cfg.reconnect_enabled = true) :
    (receive_step cfg st ev).attempts = st.attempts + 1 := by
  rcases ev with _ | ⟨code, dial⟩ | dial | _ | _
  · cases hev
  · have hcode : ¬ code = 1008 := by
      simpa [isRecoveryTrigger] using hev
    unfold receive_step attempt_reconnect bumpAttempts loopWhileCheck
    simp [hex, hrun, hws, hen, hcode]
    split_ifs <;> simp
  · unfold receive_step attempt_reconnect bumpAttempts loopWhileCheck
    simp [hex, hrun, hws, hen]
    split_ifs <;> simp
  · cases hev
  · cases hev

theorem receive_step_attempts_mono (cfg : WsClientConfig) (st : LoopState)
    (ev : LoopEvent) : st.attempts ≤ (receive_step cfg st ev).attempts := by
  rcases ev with _ | ⟨code, dial⟩ | dial | _ | _ <;>
    simp only [receive_step, attempt_reconnect, bumpAttempts,
      loopWhileCheck] <;>
    split_ifs <;> simp

/-- C10.  The loop-local reconnect counter is cumulative: no step ever
decreases it — in particular a successful reconnect does not reset it —
every unexpected (non-1008) close and every pong timeout processed by a
live loop increments it by exactly one whatever the dial outcome, and once
it has reached `maxReconnectAttempts` the next recovery trigger makes the
loop terminal (`running` cleared, task returned) even if every earlier
reconnect succeeded; in that exhausted state the handling is independent of
the dial outcome because `_attempt_reconnect` returns before dialing. -/
theorem c10_reconnect_counter_cumulative (cfg : WsClientConfig)
    (st : LoopState) :
    (∀ ev, st.attempts ≤ (receive_step cfg st ev).attempts) ∧
    (∀ ev, isRecoveryTrigger ev = true → st.running = true →
      st.has_ws = true → st.exited = false → cfg.reconnect_enabled = true →
      (receive_step cfg st ev).attempts = st.attempts + 1) ∧
    (∀ ev, isRecoveryTrigger ev = true → st.running = true →
      st.has_ws = true → st.exited = false → cfg.reconnect_enabled = true →
      cfg.max_reconnect_attempts ≤ st.attempts →
      (receive_step cfg st ev).running = false ∧
      (receive_step cfg st ev).exited = true) ∧
    (∀ code, st.running = true → st.has_ws = true → st.exited = false →
      cfg.reconnect_enabled = true →
      cfg.max_reconnect_attempts ≤ st.attempts → ¬ code = 1008 →
      receive_step cfg st (.connClosed code true) =
        receive_step cfg st (.connClosed code false) ∧
      receive_step cfg st (.pongTimeout true) =
        receive_step cfg st (.pongTimeout false)) := by
  refine ⟨?_, ?_, ?_, ?_⟩
  · intro ev
    exact receive_step_attempts_mono cfg st ev
  · intro ev hev hrun hws hex hen
    exact receive_step_trigger_attempts cfg st ev hev hrun hws hex hen
  · intro ev hev hrun hws hex hen hhigh
    rw [receive_step_fail_high cfg st ev hev hrun hws hex hen hhigh]
    exact ⟨rfl, rfl⟩
  · intro code hrun hws hex hen hhigh hcode
    constructor
    · rw [receive_step_fail_high cfg st (.connClosed code true)
        (by simp [isRecoveryTrigger, hcode]) hrun hws hex hen hhigh,
        receive_step_fail_high cfg st (.connClosed code false)
        (by simp [isRecoveryTrigger, hcode]) hrun hws hex hen hhigh]
    · rw [receive_step_fail_high cfg st (.pongTimeout true)
        (by simp [isRecoveryTrigger]) hrun hws hex hen hhigh,
        receive_step_fail_high cfg st (.pongTimeout false)
        (by simp [isRecoveryTrigger]) hrun hws hex hen hhigh]

/-- Witness for C10 at `maxReconnectAttempts = 3` and a live loop state with
3 accumulated attempts (possible even after successful reconnects): a
further close with a *successful* dial outcome still terminalizes, and at 1
attempt a close increments the counter to 2. -/
theorem c10_reconnect_counter_cumulative_witness :
    ((receive_step { reconnect_enabled := true, max_reconnect_attempts := 3 }
      { running := true, connected := true, has_ws := true, attempts := 3,
        exited := false } (.connClosed 1006 true)).running = false ∧
     (receive_step { reconnect_enabled := true, max_reconnect_attempts := 3 }
      { running := true, connected := true, has_ws := true, attempts := 3,
        exited := false } (.connClosed 1006 true)).exited = true) ∧
    (receive_step { reconnect_enabled := true, max_reconnect_attempts := 3 }
      { running := true, connected := true, has_ws := true, attempts := 1,
        exited := false } (.connClosed 1006 true)).attempts = 2 := by
  constructor
  · exact (c10_reconnect_counter_cumulative
      { reconnect_enabled := true, max_reconnect_attempts := 3 }
      { running := true, connected := true, has_ws := true, attempts := 3,
        exited := false }).2.2.1 (.connClosed 1006 true) (by decide) rfl rfl
      rfl rfl (by decide)
  · exact (c10_reconnect_counter_cumulative
      { reconnect_enabled := true, max_reconnect_attempts := 3 }
      { running := true, connected := true, has_ws := true, attempts := 1,
        exited := false }).2.1 (.connClosed 1006 true) (by decide) rfl rfl
      rfl rfl
